import Mathlib

/-!
Verification of the in-memory NMR-STAR entry model of `src/src/app/nmrstar/entry.ts`
(the `Entry` class and `entryFromJSON`), over a shallow embedding in Lean.

The companion classes `Saveframe`, `Loop`, `Tag`/`LoopTag`, `Schema` and
`DataFileStore` live in files that are not part of the provided sources (only
their import sites are); wherever their behaviour matters it is modelled from
the specification and the definition's doc comment says so.

JavaScript semantics that matter here and how they are embedded:
  * a field read on `undefined` (e.g. `tagDict[name].value` when the tag is
    absent) throws a `TypeError`; fallible operations therefore return
    `Except String _`;
  * `if (x)` on a string is a truthiness test: both `null` and `""` are falsy;
  * `RegExp.test(v)` coerces `null` to the string "null".
-/

/-- Tag: a single named value.  Fields are the ones `entry.ts` reads or writes
(`name`, `value`, `display`, `valid`, `validationMessage`,
`schemaValues['User full view']` kept as `defaultDisplay`).  The back reference
to the owning loop/saveframe is navigational only and is not modelled.
`enums` carries the schema enumeration used by the spec-modelled validation
(tag.ts is not among the sources). -/
structure STag where
  name : String
  value : Option String
  defaultDisplay : String
  display : String
  valid : Bool
  validationMessage : Option String
  enums : List String
deriving Repr, DecidableEq

/-- Loop: a category, ordered column names, and ordered rows of tags. -/
structure SLoop where
  category : String
  columns : List String
  data : List (List STag)
deriving Repr, DecidableEq

/-- Saveframe: name, category, tag prefix (`tagPrefix` in the source; the
field is called `tagPfx` here), saveframe-level tags, child loops, and the
aggregate validity/display state. -/
structure Saveframe where
  name : String
  category : String
  tagPfx : String
  tags : List STag
  loops : List SLoop
  valid : Bool
  display : String
deriving Repr, DecidableEq

/-- One row of `Entry.categories`: the source pushes the array
`[pretty_name, category, valid, display]`. -/
structure CatRow where
  prettyName : String
  category : String
  valid : Bool
  display : String
deriving Repr, DecidableEq

/-- Modelled from the spec: one (content-type, description, interview-key)
selection of an uploaded data file (`dataStore.ts` is not among the sources).
The source indexes these triples as `[0]`, `[1]`, `[2]`. -/
structure Selection where
  contentType : String
  description : String
  interviewKey : String
deriving Repr, DecidableEq

/-- Modelled from the spec: a tracked uploaded file of the `DataFileStore`:
file name, its list of (content-type, description) selections
(`control.value` in the source) and an upload percentage. -/
structure DataFile where
  fileName : Option String
  selections : List Selection
  percent : Nat
deriving Repr, DecidableEq

/-- Modelled from the spec: the `DataFileStore` (`dataStore.ts` is not among
the sources): the tracked files and the drop-down list of available
(content-type, description, interview-key) items. -/
structure DataFileStore where
  dataFiles : List DataFile
  dropDownList : List Selection
deriving Repr, DecidableEq

/-- An abstraction of the JavaScript regular expressions held in the schema
override rules: only the shapes the claims need.  `test` evaluates a pattern
against a string. -/
inductive SimpleRegex where
  | exactMatch (s : String)
  | anyMatch
deriving Repr, DecidableEq

/-- Evaluate a pattern; `exactMatch s` plays the role of the anchored
JavaScript pattern `^s$`. -/
def SimpleRegex.test (r : SimpleRegex) (s : String) : Bool :=
  match r with
  | .exactMatch p => s == p
  | .anyMatch => true

/-- JavaScript string coercion of a nullable string, as performed by
`RegExp.test`: `null` becomes the string "null". -/
def jsStr (v : Option String) : String :=
  match v with
  | none => "null"
  | some s => s

/-- JavaScript truthiness of a nullable string: `null` and `""` are falsy. -/
def jsTruthy (v : Option String) : Bool :=
  match v with
  | none => false
  | some s => s ≠ ""

/-- An override rule of `schema.overridesDictList`.  Field names follow the
string keys used by `entry.ts`: 'Conditional tag prefix' (`condTagPfx`),
'Conditional tag' (`condTag`), 'Regex' (`regex`), 'Tag category'
(`tagCategory`), 'Tag' (`ruleTag`), 'Override view value'
(`overrideViewValue`), 'Sf category' (`sfCategory`). -/
structure OverrideRule where
  condTagPfx : String
  condTag : String
  regex : SimpleRegex
  tagCategory : String
  ruleTag : String
  overrideViewValue : String
  sfCategory : String
deriving Repr, DecidableEq

/-- Modelled from the spec: the per-tag schema record (`schema.ts` is not
among the sources): the 'User full view' display default and the enumerated
values. -/
structure TagInfo where
  userFullView : String
  enums : List String
deriving Repr, DecidableEq

/-- The schema: the saveframe-category table (only the
`category_group_view_name` field is read by `entry.ts`), the per-tag table
(spec-modelled), the ordered override rules and the file-upload types consumed
by `regenerateDataStore`. -/
structure Schema where
  saveframeSchema : List (String × String)
  tagSchema : List (String × TagInfo)
  overridesDictList : List OverrideRule
  fileUploadTypes : List Selection
deriving Repr, DecidableEq

/-- Entry: the root aggregate, with the fields of the source class.
`enumerationTies` is opaque bookkeeping reset by every refresh and is kept as
a plain list. -/
structure Entry where
  entryID : String
  saveframes : List Saveframe
  schema : Schema
  categories : List CatRow
  enumerationTies : List String
  source : Option String
  dataStore : DataFileStore
  valid : Bool
deriving Repr, DecidableEq

/-- JavaScript `toLowerCase`, restricted to the ASCII range the categories
use, defined so that it reduces in the kernel. -/
def jsLower (s : String) : String :=
  String.mk (s.data.map Char.toLower)

/-- Lookup in an association list by key (JavaScript object indexing with a
string key; `none` plays the role of `undefined`). -/
def alistGet {α : Type} (l : List (String × α)) (k : String) : Option α :=
  (l.find? (fun p => p.1 == k)).map (fun p => p.2)

/-- The `tagDict` lookup of a saveframe: the tag with the given
fully-qualified name.  Tag names are unique within a saveframe (the dict is
keyed by name), so first-match lookup agrees with the source's object field
access. -/
def Saveframe.findTag (sf : Saveframe) (fqtn : String) : Option STag :=
  sf.tags.find? (fun t => t.name == fqtn)

/-- Modelled from the spec: `Saveframe.getTagValue` (saveframe.ts is not among
the sources): the value of the named saveframe-level tag, or null when the
saveframe does not hold the tag. -/
def Saveframe.getTagValue (sf : Saveframe) (fqtn : String) : Option String :=
  match sf.findTag fqtn with
  | none => none
  | some t => t.value

/-- `Entry.getTagValue` (entry.ts lines 109-125): scan the saveframes in list
order, skipping the optional `skip` frame (object identity in the source,
embedded as a position), and return the first result that is truthy — the
source tests `if (sf_res)`, so both a `null` and an empty-string value make
the scan continue.  Returns null when nothing matched. -/
def Entry.getTagValueAux (fqtn : String) (skip : Option Nat) :
    List Saveframe → Nat → Option String
  | [], _ => none
  | sf :: rest, i =>
    if skip == some i then Entry.getTagValueAux fqtn skip rest (i + 1)
    else
      let r := sf.getTagValue fqtn
      if jsTruthy r then r else Entry.getTagValueAux fqtn skip rest (i + 1)

/-- Entry-level tag lookup; see `Entry.getTagValueAux`. -/
def Entry.getTagValue (e : Entry) (fqtn : String) (skip : Option Nat := none) :
    Option String :=
  Entry.getTagValueAux fqtn skip e.saveframes 0

/-- `Entry.getSaveframesByCategory` (entry.ts lines 136-144): all saveframes
whose category matches case-insensitively. -/
def Entry.getSaveframesByCategory (e : Entry) (c : String) : List Saveframe :=
  e.saveframes.filter (fun sf => jsLower sf.category == jsLower c)

/-- `Entry.getSaveframesByPrefix` (entry.ts lines 146-154). -/
def Entry.getSaveframesByPrefix (e : Entry) (p : String) : List Saveframe :=
  e.saveframes.filter (fun sf => sf.tagPfx == p)

/-- `Entry.getLoopsByCategory` (entry.ts lines 254-264): the loops of that
category, in saveframe-then-loop order. -/
def Entry.getLoopsByCategory (e : Entry) (c : String) : List SLoop :=
  (e.saveframes.map (fun sf => sf.loops.filter (fun l => l.category == c))).flatten

/-- First-occurrence deduplication against an already-seen accumulator. -/
def dedupFirstAux (seen : List String) : List String → List String
  | [] => []
  | x :: xs =>
    if seen.contains x then dedupFirstAux seen xs
    else x :: dedupFirstAux (seen ++ [x]) xs

/-- First-occurrence deduplication, the iteration order of a JavaScript `Set`
built by insertion (entry.ts lines 63-67). -/
def dedupFirst (l : List String) : List String :=
  dedupFirstAux [] l

/-- The category display fold of `updateCategories` (entry.ts lines 83-92):
'Y' short-circuits; otherwise the first non-'H' display wins. -/
def catDisplayGo (acc : String) : List Saveframe → String
  | [] => acc
  | sf :: rest =>
    if sf.display == "Y" then "Y"
    else if acc == "H" then catDisplayGo sf.display rest
    else catDisplayGo acc rest

/-- Build the `categories` rows for the given (deduplicated) category list.
The lookup `schema.saveframeSchema[category]['category_group_view_name']`
throws a `TypeError` when the category is absent from the schema. -/
def buildCatRows (e : Entry) : List String → Except String (List CatRow)
  | [] => Except.ok []
  | c :: rest =>
    match alistGet e.schema.saveframeSchema c with
    | none =>
      Except.error "TypeError: cannot read category_group_view_name of undefined"
    | some pretty =>
      let matching := e.getSaveframesByCategory c
      let rowValid := matching.all (fun sf => sf.valid)
      let rowDisplay := catDisplayGo "H" matching
      match buildCatRows e rest with
      | Except.error m => Except.error m
      | Except.ok tail =>
        Except.ok ({ prettyName := pretty, category := c, valid := rowValid,
                     display := rowDisplay } :: tail)

/-- `Entry.updateCategories` (entry.ts lines 59-97). -/
def Entry.updateCategoriesE (e : Entry) : Except String Entry :=
  match buildCatRows e (dedupFirst (e.saveframes.map (fun sf => sf.category))) with
  | Except.error m => Except.error m
  | Except.ok rows => Except.ok { e with categories := rows }

/-- Reset a tag's display to its schema default
(`tag.display = tag.schemaValues['User full view']`, entry.ts lines 163-175). -/
def STag.resetDisplay (t : STag) : STag :=
  { t with display := t.defaultDisplay }

/-- Display reset over a loop's rows. -/
def SLoop.resetDisplays (l : SLoop) : SLoop :=
  { l with data := l.data.map (List.map STag.resetDisplay) }

/-- Display reset over a saveframe's tags and loop rows. -/
def Saveframe.resetDisplays (sf : Saveframe) : Saveframe :=
  { sf with tags := sf.tags.map STag.resetDisplay,
            loops := sf.loops.map SLoop.resetDisplays }

/-- The first pass of `Entry.refresh`: clear the enumeration ties and reset
every tag display to its schema default. -/
def Entry.resetPass (e : Entry) : Entry :=
  { e with enumerationTies := [],
           saveframes := e.saveframes.map Saveframe.resetDisplays }

/-- Set the display of the named saveframe-level tag (assignment through
`tagDict`; tag names are unique within a saveframe). -/
def Saveframe.setTagDisplay (sf : Saveframe) (fqtn newDisplay : String) : Saveframe :=
  { sf with tags := sf.tags.map (fun t =>
      if t.name == fqtn then { t with display := newDisplay } else t) }

/-- Reset the named saveframe-level tag's display to its own schema default
(the `Override view value === 'O'` branch). -/
def Saveframe.setTagDisplayDefault (sf : Saveframe) (fqtn : String) : Saveframe :=
  { sf with tags := sf.tags.map (fun t =>
      if t.name == fqtn then { t with display := t.defaultDisplay } else t) }

/-- Modelled from the spec: `Loop.setVisibility(rule)` (loop.ts is not among
the sources): every row's tag matching the rule's target tag name has its
display set identically — to the rule's override view value, or back to its
schema default when that value is 'O'; a row without the tag is left alone
(non-fatal). -/
def SLoop.setVisibility (l : SLoop) (rule : OverrideRule) : SLoop :=
  { l with data := l.data.map (List.map (fun t =>
      if t.name == rule.ruleTag then
        { t with display :=
            if rule.overrideViewValue == "O" then t.defaultDisplay
            else rule.overrideViewValue }
      else t)) }

/-- Modelled from the spec: `Saveframe.setVisibility(rule)` (saveframe.ts is
not among the sources): delegate the same per-tag display update to the
saveframe's own tags and to its child loops; absent tags are skipped
(non-fatal). -/
def Saveframe.setVisibility (sf : Saveframe) (rule : OverrideRule) : Saveframe :=
  { sf with
      tags := sf.tags.map (fun t =>
        if t.name == rule.ruleTag then
          { t with display :=
              if rule.overrideViewValue == "O" then t.defaultDisplay
              else rule.overrideViewValue }
        else t),
      loops := sf.loops.map (fun l => l.setVisibility rule) }

/-- Replace the saveframe at a position. -/
def Entry.setSaveframeAt (e : Entry) (i : Nat) (sf : Saveframe) : Entry :=
  { e with saveframes := e.saveframes.set i sf }

/-- One override rule applied at the saveframe at position `i`, translated
from the body of the rule loop of `Entry.refresh` (entry.ts lines 177-219):

  * a rule whose conditional tag prefix is not the saveframe's tag prefix is
    ignored;
  * reading `saveframe.tagDict[rule['Conditional tag']].value` throws when the
    conditional tag is absent;
  * when the regex fires and the rule targets the saveframe's own tag prefix:
    the 'O' branch writes through `tagDict[rule['Tag']]` unguarded (throws
    when absent), while the non-'O' branch checks the tag and skips with a
    console warning when it is absent;
  * otherwise the rule goes to the child loop of the target category when one
    exists (the source keys loops by category, so a duplicated category
    resolves to that dictionary entry; loop categories are unique within a
    saveframe), and else to every saveframe of the rule's target saveframe
    category. -/
def Entry.applyRule (e : Entry) (i : Nat) (rule : OverrideRule) :
    Except String Entry :=
  match e.saveframes.get? i with
  | none => Except.ok e
  | some sf =>
    if rule.condTagPfx == sf.tagPfx then
      match sf.findTag rule.condTag with
      | none => Except.error "TypeError: cannot read value of undefined"
      | some condTag =>
        if rule.regex.test (jsStr condTag.value) then
          if rule.tagCategory == sf.tagPfx then
            if rule.overrideViewValue == "O" then
              match sf.findTag rule.ruleTag with
              | none => Except.error "TypeError: cannot set display of undefined"
              | some _ =>
                Except.ok (e.setSaveframeAt i (sf.setTagDisplayDefault rule.ruleTag))
            else
              match sf.findTag rule.ruleTag with
              | none => Except.ok e
              | some _ =>
                Except.ok (e.setSaveframeAt i
                  (sf.setTagDisplay rule.ruleTag rule.overrideViewValue))
          else
            if sf.loops.any (fun l => l.category == rule.tagCategory) then
              Except.ok (e.setSaveframeAt i
                { sf with loops := sf.loops.map (fun l =>
                    if l.category == rule.tagCategory then l.setVisibility rule
                    else l) })
            else
              Except.ok { e with saveframes := e.saveframes.map (fun f =>
                if jsLower f.category == jsLower rule.sfCategory then
                  f.setVisibility rule
                else f) }
        else Except.ok e
    else Except.ok e

/-- All override rules applied in declared order at saveframe `i`. -/
def Entry.applyRulesAt (i : Nat) : Entry → List OverrideRule → Except String Entry
  | e, [] => Except.ok e
  | e, r :: rs =>
    match e.applyRule i r with
    | Except.error m => Except.error m
    | Except.ok e2 => Entry.applyRulesAt i e2 rs

/-- The override pass over the given saveframe positions.  The saveframe list
itself is never resized during the pass, so iterating the positions of the
starting list matches the source's live iteration. -/
def Entry.overridePassAux : Entry → List Nat → Except String Entry
  | e, [] => Except.ok e
  | e, i :: rest =>
    match Entry.applyRulesAt i e e.schema.overridesDictList with
    | Except.error m => Except.error m
    | Except.ok e2 => Entry.overridePassAux e2 rest

/-- The override pass of `Entry.refresh` (entry.ts lines 177-219). -/
def Entry.overridePass (e : Entry) : Except String Entry :=
  Entry.overridePassAux e (List.range e.saveframes.length)

/-- Modelled from the spec: per-tag validation (tag.ts is not among the
sources): a domain validity failure such as an out-of-enumeration value is
recorded on the tag as a validity flag plus message; a tag with no
enumeration, or no value, is valid.  The flag and message are fully
recomputed. -/
def STag.validate (t : STag) : STag :=
  match t.value with
  | none => { t with valid := true, validationMessage := none }
  | some v =>
    if t.enums.isEmpty || t.enums.contains v then
      { t with valid := true, validationMessage := none }
    else
      { t with valid := false, validationMessage := some "Value not in enumeration" }

/-- Tag validation over a loop's rows. -/
def SLoop.validate (l : SLoop) : SLoop :=
  { l with data := l.data.map (List.map STag.validate) }

/-- The display aggregate of a saveframe: 'Y' when any contained tag shows
'Y', else 'N' when any shows 'N', else 'H' (spec: always-shown beats the
weakest non-hidden state, which beats hidden). -/
def Saveframe.aggregateDisplay (tags : List STag) (loops : List SLoop) : String :=
  let allTags := tags ++ (loops.map (fun l => l.data.flatten)).flatten
  if allTags.any (fun t => t.display == "Y") then "Y"
  else if allTags.any (fun t => t.display == "N") then "N"
  else "H"

/-- Modelled from the spec: `Saveframe.refresh` (saveframe.ts is not among
the sources): revalidate every contained tag and recompute the aggregate
validity (false when any contained tag is invalid) and display. -/
def Saveframe.refreshSf (sf : Saveframe) : Saveframe :=
  let tags := sf.tags.map STag.validate
  let loops := sf.loops.map SLoop.validate
  { sf with tags := tags, loops := loops,
            valid := tags.all (fun t => t.valid) &&
                     loops.all (fun l => l.data.all (fun row => row.all (fun t => t.valid))),
            display := Saveframe.aggregateDisplay tags loops }

/-- The fixed explanatory message of the citation check, exactly the
concatenation built at entry.ts lines 237-238 (no space joins the two
sentences). -/
def citationMessage : String :=
  "Each deposition must have at least one saveframe of type \"entry citation\".Please either create a new citation of type \"entry citation\" or update one of the existing ones."

/-- Mark a citation saveframe invalid: its `_Citation.Class` tag gets
`valid = false` and the fixed message, and the frame itself gets
`valid = false` (entry.ts lines 234-240). -/
def Saveframe.markCitationInvalid (sf : Saveframe) : Saveframe :=
  { sf with valid := false,
            tags := sf.tags.map (fun t =>
              if t.name == "_Citation.Class" then
                { t with valid := false, validationMessage := some citationMessage }
              else t) }

/-- The marking loop of the citation check: every saveframe of category
"citations" is marked; `getTag('_Citation.Class')` returning null makes the
subsequent `classTag.valid = false` assignment throw. -/
def markCitationFrames : List Saveframe → Except String (List Saveframe)
  | [] => Except.ok []
  | sf :: rest =>
    if jsLower sf.category == "citations" then
      match sf.findTag "_Citation.Class" with
      | none => Except.error "TypeError: cannot set valid of null"
      | some _ =>
        match markCitationFrames rest with
        | Except.error m => Except.error m
        | Except.ok tail => Except.ok (sf.markCitationInvalid :: tail)
    else
      match markCitationFrames rest with
      | Except.error m => Except.error m
      | Except.ok tail => Except.ok (sf :: tail)

/-- The citation check of `Entry.refresh` (entry.ts lines 226-241): when no
saveframe of category "citations" has the value "entry citation" for its
`_Citation.Class` tag, mark every citation saveframe invalid. -/
def Entry.citationPass (e : Entry) : Except String Entry :=
  let referenceCitation := (e.getSaveframesByCategory "citations").any
    (fun f => f.getTagValue "_Citation.Class" == some "entry citation")
  if referenceCitation then Except.ok e
  else
    match markCitationFrames e.saveframes with
    | Except.error m => Except.error m
    | Except.ok sfs => Except.ok { e with saveframes := sfs }

/-- The final validity computation of `Entry.refresh` (entry.ts lines
244-251): the entry is invalid exactly when some saveframe with display "Y"
is invalid. -/
def computeEntryValid (sfs : List Saveframe) : Bool :=
  !(sfs.any (fun sf => sf.display == "Y" && !sf.valid))

/-- `Entry.refresh` (entry.ts lines 156-252), as the ordered passes of the
source: reset enumeration ties and tag displays, apply the override rules,
refresh each saveframe, run the citation check, rebuild the category summary,
and recompute the overall validity flag. -/
def Entry.refreshE (e : Entry) : Except String Entry :=
  match (e.resetPass).overridePass with
  | Except.error m => Except.error m
  | Except.ok e2 =>
    match Entry.citationPass { e2 with saveframes := e2.saveframes.map Saveframe.refreshSf } with
    | Except.error m => Except.error m
    | Except.ok e4 =>
      match e4.updateCategoriesE with
      | Except.error m => Except.error m
      | Except.ok e5 => Except.ok { e5 with valid := computeEntryValid e5.saveframes }

/-- Modelled from the spec: the `LoopTag` constructor used by
`updateUploadedData` (tag.ts is not among the sources): a loop tag built from
a name and a value; the owning-loop back reference is navigational only and
is not modelled, and the display/validity state starts at its defaults. -/
def mkLoopTag (name : String) (value : Option String) : STag :=
  { name := name, value := value, defaultDisplay := "H", display := "H",
    valid := true, validationMessage := none, enums := [] }

/-- One row pushed by `updateUploadedData` (entry.ts lines 289-299):
`rowID` is `newData.length + 1` at push time and `fileIdx` is the 1-based
file position written into `Deposited_data_files_ID`. -/
def mkUploadRow (entryID : String) (rowID fileIdx : Nat) (fileName : Option String)
    (sfCat sfDescription : Option String) : List STag :=
  [mkLoopTag "Data_file_ID" (some (toString rowID)),
   mkLoopTag "Data_file_name" fileName,
   mkLoopTag "Data_file_content_type" sfCat,
   mkLoopTag "Data_file_Sf_category" sfDescription,
   mkLoopTag "Data_file_syntax" none,
   mkLoopTag "Data_file_immutable_flag" none,
   mkLoopTag "Sf_ID" none,
   mkLoopTag "Entry_ID" (some entryID),
   mkLoopTag "Deposited_data_files_ID" (some (toString fileIdx))]

/-- Append one row, numbering it with the current accumulated length plus one
(the source uses `newData.length + 1`). -/
def pushUploadRow (entryID : String) (fileIdx : Nat) (f : DataFile)
    (sel : Option Selection) (acc : List (List STag)) : List (List STag) :=
  acc ++ [mkUploadRow entryID (acc.length + 1) fileIdx f.fileName
            (sel.map (fun s => s.contentType)) (sel.map (fun s => s.description))]

/-- The rows contributed by one file: one placeholder row when it has no
selections (the `n = -1` iteration), else one row per selection. -/
def fileUploadRows (entryID : String) (fileIdx : Nat) (f : DataFile)
    (acc : List (List STag)) : List (List STag) :=
  if f.selections.isEmpty then pushUploadRow entryID fileIdx f none acc
  else f.selections.foldl (fun a sel => pushUploadRow entryID fileIdx f (some sel) a) acc

/-- The double loop of `updateUploadedData` building `newData`
(entry.ts lines 275-301); `i` is the 0-based file index. -/
def buildUploadRowsAux (entryID : String) :
    List DataFile → Nat → List (List STag) → List (List STag)
  | [], _, acc => acc
  | f :: rest, i, acc =>
    buildUploadRowsAux entryID rest (i + 1) (fileUploadRows entryID (i + 1) f acc)

/-- The full rebuilt `newData` row list. -/
def buildUploadRows (entryID : String) (files : List DataFile) : List (List STag) :=
  buildUploadRowsAux entryID files 0 []

/-- Replace the data of the first loop of the given category in a loop list. -/
def replaceLoopDataFirst (cat : String) : List SLoop → List (List STag) → List SLoop
  | [], _ => []
  | l :: rest, d =>
    if l.category == cat then ({ l with data := d }) :: rest
    else l :: replaceLoopDataFirst cat rest d

/-- Replace the data of the first loop of the given category across the
saveframe list (the source mutates `getLoopsByCategory(cat)[0]` in place). -/
def replaceFirstLoopData (cat : String) : List Saveframe → List (List STag) → List Saveframe
  | [], _ => []
  | sf :: rest, d =>
    if sf.loops.any (fun l => l.category == cat) then
      ({ sf with loops := replaceLoopDataFirst cat sf.loops d }) :: rest
    else sf :: replaceFirstLoopData cat rest d

/-- Set the value of the named saveframe-level tag when it exists (the
`if (categoryTag)` guards at entry.ts lines 314 and 323). -/
def Saveframe.setTagValueIfPresent (sf : Saveframe) (fqtn : String) (v : String) :
    Saveframe :=
  { sf with tags := sf.tags.map (fun t =>
      if t.name == fqtn then { t with value := some v } else t) }

/-- The interview-tag rewrite of `updateUploadedData` (entry.ts lines
309-327): reset every drop-down category tag to "no", then set the categories
present across the tracked files to "yes". -/
def updateInterviewFrame (store : DataFileStore) (sf : Saveframe) : Saveframe :=
  let sf1 := store.dropDownList.foldl
    (fun s item => s.setTagValueIfPresent ("_Entry_interview." ++ item.interviewKey) "no") sf
  store.dataFiles.foldl
    (fun s f => f.selections.foldl
      (fun s2 sel => s2.setTagValueIfPresent ("_Entry_interview." ++ sel.interviewKey) "yes") s)
    sf1

/-- `Entry.updateUploadedData` (entry.ts lines 267-328).  The `_Upload_data`
loop is only assigned — and can only raise for being absent — when the
rebuilt row list is non-empty (`if (newData.length)`); the interview
saveframe is dereferenced only when a drop-down item or a selection exists. -/
def Entry.updateUploadedDataE (e : Entry) : Except String Entry :=
  let newData := buildUploadRows e.entryID e.dataStore.dataFiles
  let step1 : Except String Entry :=
    if newData.isEmpty then Except.ok e
    else if (e.getLoopsByCategory "_Upload_data").isEmpty then
      Except.error "TypeError: cannot set data of undefined"
    else Except.ok { e with saveframes := replaceFirstLoopData "_Upload_data" e.saveframes newData }
  match step1 with
  | Except.error m => Except.error m
  | Except.ok e1 =>
    match e1.saveframes.findIdx? (fun sf => jsLower sf.category == "entry_interview") with
    | some i =>
      match e1.saveframes.get? i with
      | none => Except.ok e1
      | some sf => Except.ok (e1.setSaveframeAt i (updateInterviewFrame e1.dataStore sf))
    | none =>
      if e1.dataStore.dropDownList.isEmpty &&
         e1.dataStore.dataFiles.all (fun f => f.selections.isEmpty) then
        Except.ok e1
      else Except.error "TypeError: cannot read tagDict of undefined"

/-- `getSelectionByDescription` inside `regenerateDataStore` (entry.ts lines
334-343): null maps to null, otherwise the first drop-down item whose
description matches; no match falls through to `undefined`. -/
def getSelectionByDescription (dropDownList : List Selection) (category : Option String) :
    Option Selection :=
  match category with
  | none => none
  | some c => dropDownList.find? (fun item => item.description == c)

/-- Record one upload row in the name-keyed builder (entry.ts lines 347-359):
a new file name is appended in first-seen order with an empty selection list,
and a resolved selection is appended to its file's list. -/
def regenAdd (acc : List (String × List Selection)) (key : String)
    (sel : Option Selection) : List (String × List Selection) :=
  if acc.any (fun p => p.1 == key) then
    match sel with
    | none => acc
    | some s => acc.map (fun p => if p.1 == key then (p.1, p.2 ++ [s]) else p)
  else
    match sel with
    | none => acc ++ [(key, [])]
    | some s => acc ++ [(key, [s])]

/-- The row scan of `regenerateDataStore`: rows whose file-name cell
(`dataRow[1]`) holds a falsy value are skipped; a row too short for index 1
or 3 makes the property read throw. -/
def regenFold (ddl : List Selection) :
    List (List STag) → List (String × List Selection) →
    Except String (List (String × List Selection))
  | [], acc => Except.ok acc
  | row :: rest, acc =>
    match row.get? 1 with
    | none => Except.error "TypeError: cannot read value of undefined"
    | some t1 =>
      if jsTruthy t1.value then
        match row.get? 3 with
        | none => Except.error "TypeError: cannot read value of undefined"
        | some t3 =>
          regenFold ddl rest (regenAdd acc (jsStr t1.value) (getSelectionByDescription ddl t3.value))
      else regenFold ddl rest acc

/-- `Entry.regenerateDataStore` (entry.ts lines 330-366): rebuild the
`DataFileStore` from the current `_Upload_data` loop.  `DataFileStore` and
its `addFile` are not among the sources; modelled from the spec, `addFile`
appends a tracked file with the given name and selections, and the
`percent = 100` assignment marks it fully uploaded.  An entry without an
`_Upload_data` loop makes the `dataLoop.data` read throw. -/
def Entry.regenerateDataStoreE (e : Entry) : Except String Entry :=
  match (e.getLoopsByCategory "_Upload_data").head? with
  | none => Except.error "TypeError: cannot read data of undefined"
  | some dataLoop =>
    match regenFold e.schema.fileUploadTypes dataLoop.data [] with
    | Except.error m => Except.error m
    | Except.ok acc =>
      Except.ok { e with dataStore :=
        { dataFiles := acc.map (fun p =>
            { fileName := some p.1, selections := p.2, percent := 100 }),
          dropDownList := e.schema.fileUploadTypes } }

/-- Modelled from the spec: the JSON snapshot of a saveframe (saveframe.ts is
not among the sources).  The spec's black-box contract is that whatever a
saveframe emits is re-parsable into an equivalent saveframe, so the snapshot
keeps the name, category, tag prefix, the (name, value) pairs of the
saveframe-level tags, and each loop's category, columns and row values. -/
structure SaveframeJSON where
  name : String
  category : String
  tagPfx : String
  tags : List (String × Option String)
  loops : List (String × List String × List (List (String × Option String)))
deriving Repr, DecidableEq

/-- The JSON snapshot consumed by `entryFromJSON`: `Entry.toJSON`
(entry.ts lines 27-29) emits `entry_id` and `saveframes`; the schema snapshot
is stored separately and re-injected into the object as `jdata['schema']` by
the loader before `entryFromJSON` runs (FrontEnd api.service.ts). -/
structure EntryJSON where
  entry_id : String
  schema : Schema
  saveframes : List SaveframeJSON
deriving Repr, DecidableEq

/-- Modelled from the spec: `Saveframe.toJSON` (saveframe.ts is not among the
sources); see `SaveframeJSON`. -/
def Saveframe.toJSON (sf : Saveframe) : SaveframeJSON :=
  { name := sf.name, category := sf.category, tagPfx := sf.tagPfx,
    tags := sf.tags.map (fun t => (t.name, t.value)),
    loops := sf.loops.map (fun l =>
      (l.category, l.columns, l.data.map (List.map (fun t => (t.name, t.value))))) }

/-- `Entry.toJSON` (entry.ts lines 27-29) together with the loader-side
schema re-injection: the snapshot carries the entry id, the schema and the
serialized saveframes. -/
def Entry.toJSONfull (e : Entry) : EntryJSON :=
  { entry_id := e.entryID, schema := e.schema,
    saveframes := e.saveframes.map Saveframe.toJSON }

/-- Modelled from the spec: rebuilding one tag from its snapshot against the
schema (tag.ts is not among the sources): the value is kept and the display
default and enumeration come from the schema's tag table; a tag absent from
the schema is treated as always-valid with a default display (spec error
taxonomy: schema-resolution gaps are non-fatal). -/
def mkSchemaTag (schema : Schema) (n : String) (v : Option String) : STag :=
  match alistGet schema.tagSchema n with
  | none =>
    { name := n, value := v, defaultDisplay := "H", display := "H",
      valid := true, validationMessage := none, enums := [] }
  | some info =>
    { name := n, value := v, defaultDisplay := info.userFullView,
      display := info.userFullView, valid := true, validationMessage := none,
      enums := info.enums }

/-- Modelled from the spec: `saveframeFromJSON` (saveframe.ts is not among
the sources): rebuild the saveframe from its snapshot, wiring each tag to the
schema; validity and display are recomputed by the `refresh()` the loader
performs, so they start at defaults. -/
def saveframeFromJSON (schema : Schema) (j : SaveframeJSON) : Saveframe :=
  { name := j.name, category := j.category, tagPfx := j.tagPfx,
    tags := j.tags.map (fun p => mkSchemaTag schema p.1 p.2),
    loops := j.loops.map (fun l =>
      { category := l.1, columns := l.2.1,
        data := l.2.2.map (List.map (fun p => mkSchemaTag schema p.1 p.2)) }),
    valid := true, display := "H" }

/-- The `Entry` constructor (entry.ts lines 18-25) with the schema attached
as `entryFromJSON` does: empty saveframe list, empty enumeration ties, valid;
the constructor's `updateCategories()` on the empty list yields `[]`. -/
def Entry.fresh (id : String) (schema : Schema) : Entry :=
  { entryID := id, saveframes := [], schema := schema, categories := [],
    enumerationTies := [], source := none,
    dataStore := { dataFiles := [], dropDownList := [] }, valid := true }

/-- `Entry.addSaveframe` (entry.ts lines 38-48) without the optional refresh
(the rehydration path passes `refresh = false`): negative positions append,
otherwise splice inserts at the position. -/
def Entry.addSaveframeNoRefresh (e : Entry) (sf : Saveframe) (position : Int) : Entry :=
  if position < 0 then { e with saveframes := e.saveframes ++ [sf] }
  else { e with saveframes := e.saveframes.insertIdx position.toNat sf }

/-- `entryFromJSON` (entry.ts lines 370-382): construct the entry, attach the
schema (the `Schema` constructor is not among the sources; modelled from the
spec it is the pure lookup structure carried by the snapshot), append every
saveframe without refreshing, rebuild the data store, then refresh. -/
def entryFromJSONE (j : EntryJSON) : Except String Entry :=
  match (j.saveframes.foldl
      (fun acc sfj => acc.addSaveframeNoRefresh (saveframeFromJSON j.schema sfj) (-1))
      (Entry.fresh j.entry_id j.schema)).regenerateDataStoreE with
  | Except.error m => Except.error m
  | Except.ok e2 => e2.refreshE

/-- Erase a tag's volatile state (display, validity, message): what
`refresh()` overwrites.  The name, value, schema default and enumeration are
the persistent data. -/
def STag.scrub (t : STag) : STag :=
  { t with display := "", valid := true, validationMessage := none }

/-- Erase only a tag's validity state, keeping the display. -/
def STag.scrubV (t : STag) : STag :=
  { t with valid := true, validationMessage := none }

/-- Tag scrub over a loop. -/
def SLoop.scrub (l : SLoop) : SLoop :=
  { l with data := l.data.map (List.map STag.scrub) }

/-- Validity scrub over a loop. -/
def SLoop.scrubV (l : SLoop) : SLoop :=
  { l with data := l.data.map (List.map STag.scrubV) }

/-- Erase a saveframe's volatile state: tag displays/validity and the
aggregate flags. -/
def Saveframe.scrub (sf : Saveframe) : Saveframe :=
  { sf with tags := sf.tags.map STag.scrub, loops := sf.loops.map SLoop.scrub,
            valid := true, display := "" }

/-- Erase a saveframe's validity state and aggregate flags, keeping tag
displays. -/
def Saveframe.scrubV (sf : Saveframe) : Saveframe :=
  { sf with tags := sf.tags.map STag.scrubV, loops := sf.loops.map SLoop.scrubV,
            valid := true, display := "" }

/-- Erase an entry's volatile state: everything `refresh()` recomputes. -/
def Entry.scrub (e : Entry) : Entry :=
  { e with saveframes := e.saveframes.map Saveframe.scrub, categories := [],
           enumerationTies := [], valid := true }

/-- Erase an entry's validity state, category summary and ties, keeping tag
displays. -/
def Entry.scrubMid (e : Entry) : Entry :=
  { e with saveframes := e.saveframes.map Saveframe.scrubV, categories := [],
           enumerationTies := [], valid := true }

/-- Erase only the entry-level derived state (category summary, overall
flag, ties). -/
def Entry.scrubTop (e : Entry) : Entry :=
  { e with categories := [], enumerationTies := [], valid := true }

/-- The persistent data of a tag: its name and value. -/
def STag.shape (t : STag) : String × Option String := (t.name, t.value)

/-- The persistent data of a loop: category and row values. -/
def SLoop.shape (l : SLoop) : String × List (List (String × Option String)) :=
  (l.category, l.data.map (List.map STag.shape))

/-- The persistent data of a saveframe: name, category, tag values and loop
values. -/
def Saveframe.shape (sf : Saveframe) :
    String × String × List (String × Option String) ×
    List (String × List (List (String × Option String))) :=
  (sf.name, sf.category, sf.tags.map STag.shape, sf.loops.map SLoop.shape)

/-- The persistent data of an entry: the saveframe list's names, categories
and tag values, in order. -/
def Entry.shape (e : Entry) :
    List (String × String × List (String × Option String) ×
          List (String × List (List (String × Option String)))) :=
  e.saveframes.map Saveframe.shape

/-- Observe, on a refresh result, the display of the named tag of the first
saveframe. -/
def firstFrameTagDisplay (r : Except String Entry) (fqtn : String) : Option String :=
  match r with
  | Except.error _ => none
  | Except.ok e2 =>
    match e2.saveframes.head? with
    | none => none
    | some sf => (sf.findTag fqtn).map (fun t => t.display)

/-- Observe the data rows of the first `_Upload_data` loop of an entry. -/
def uploadRowsOf (e : Entry) : Option (List (List STag)) :=
  ((e.getLoopsByCategory "_Upload_data").head?).map (fun l => l.data)

deriving instance DecidableEq for Except

/-- A schema with no rules, tags or categories. -/
def emptySchema : Schema :=
  { saveframeSchema := [], tagSchema := [], overridesDictList := [],
    fileUploadTypes := [] }

/-- An empty data store. -/
def emptyStore : DataFileStore := { dataFiles := [], dropDownList := [] }

/-- A rule whose conditional tag is absent from the matching saveframe. -/
def cex5Rule : OverrideRule :=
  { condTagPfx := "_T", condTag := "_T.Missing", regex := SimpleRegex.anyMatch,
    tagCategory := "_T", ruleTag := "_T.X", overrideViewValue := "Y",
    sfCategory := "t" }

/-- An entry whose single saveframe matches `cex5Rule`'s conditional prefix
but does not hold the conditional tag. -/
def cex5Entry : Entry :=
  { entryID := "c5", saveframes := [
      { name := "t1", category := "t", tagPfx := "_T",
        tags := [{ name := "_T.X", value := some "v", defaultDisplay := "Y",
                   display := "Y", valid := true, validationMessage := none,
                   enums := [] }],
        loops := [], valid := true, display := "Y" }],
    schema := { saveframeSchema := [("t", "T")], tagSchema := [],
                overridesDictList := [cex5Rule], fileUploadTypes := [] },
    categories := [], enumerationTies := [], source := none,
    dataStore := emptyStore, valid := true }

/-- A rule whose target tag is absent but whose conditional tag is present
and whose override view value is not 'O'. -/
def c5wRule : OverrideRule :=
  { condTagPfx := "_T", condTag := "_T.C", regex := SimpleRegex.anyMatch,
    tagCategory := "_T", ruleTag := "_T.Absent", overrideViewValue := "Y",
    sfCategory := "t" }

/-- An entry whose single saveframe holds `c5wRule`'s conditional tag but not
its target tag. -/
def c5wEntry : Entry :=
  { entryID := "c5w", saveframes := [
      { name := "t1", category := "t", tagPfx := "_T",
        tags := [{ name := "_T.C", value := some "v", defaultDisplay := "Y",
                   display := "Y", valid := true, validationMessage := none,
                   enums := [] }],
        loops := [], valid := true, display := "Y" }],
    schema := { saveframeSchema := [("t", "T")], tagSchema := [],
                overridesDictList := [c5wRule], fileUploadTypes := [] },
    categories := [], enumerationTies := [], source := none,
    dataStore := emptyStore, valid := true }

/-- An entry with a saveframe whose category does not resolve in the
schema's saveframe table. -/
def cex6Entry : Entry :=
  { entryID := "c6", saveframes := [
      { name := "m1", category := "mystery", tagPfx := "_M", tags := [],
        loops := [], valid := true, display := "H" }],
    schema := emptySchema, categories := [], enumerationTies := [],
    source := none, dataStore := emptyStore, valid := true }

/-- A second entry with an unresolved saveframe category, for the amended
statement. -/
def c6wEntry : Entry :=
  { entryID := "c6w", saveframes := [
      { name := "m2", category := "unknown", tagPfx := "_U", tags := [],
        loops := [], valid := true, display := "H" }],
    schema := emptySchema, categories := [], enumerationTies := [],
    source := none, dataStore := emptyStore, valid := true }

/-- An entry with one hidden citations saveframe of class "other". -/
def cex3Entry : Entry :=
  { entryID := "c3", saveframes := [
      { name := "cit1", category := "citations", tagPfx := "_Citation",
        tags := [{ name := "_Citation.Class", value := some "other",
                   defaultDisplay := "H", display := "H", valid := true,
                   validationMessage := none, enums := [] }],
        loops := [], valid := true, display := "H" }],
    schema := { saveframeSchema := [("citations", "Cit")], tagSchema := [],
                overridesDictList := [], fileUploadTypes := [] },
    categories := [], enumerationTies := [], source := none,
    dataStore := emptyStore, valid := true }

/-- An entry with one displayed citations saveframe of class "other". -/
def c3wEntry : Entry :=
  { entryID := "c3w", saveframes := [
      { name := "cit1", category := "citations", tagPfx := "_Citation",
        tags := [{ name := "_Citation.Class", value := some "other",
                   defaultDisplay := "Y", display := "Y", valid := true,
                   validationMessage := none, enums := [] }],
        loops := [], valid := true, display := "Y" }],
    schema := { saveframeSchema := [("citations", "Cit")], tagSchema := [],
                overridesDictList := [], fileUploadTypes := [] },
    categories := [], enumerationTies := [], source := none,
    dataStore := emptyStore, valid := true }

/-- The refresh result of `c3wEntry`: the class tag and the frame are marked
invalid and the entry flag is false. -/
def c3wResult : Entry :=
  { entryID := "c3w", saveframes := [
      { name := "cit1", category := "citations", tagPfx := "_Citation",
        tags := [{ name := "_Citation.Class", value := some "other",
                   defaultDisplay := "Y", display := "Y", valid := false,
                   validationMessage := some citationMessage, enums := [] }],
        loops := [], valid := false, display := "Y" }],
    schema := { saveframeSchema := [("citations", "Cit")], tagSchema := [],
                overridesDictList := [], fileUploadTypes := [] },
    categories := [{ prettyName := "Cit", category := "citations",
                     valid := false, display := "Y" }],
    enumerationTies := [], source := none, dataStore := emptyStore,
    valid := false }

/-- An entry with one displayed citations saveframe of class
"entry citation". -/
def c3pEntry : Entry :=
  { entryID := "c3p", saveframes := [
      { name := "cit1", category := "citations", tagPfx := "_Citation",
        tags := [{ name := "_Citation.Class", value := some "entry citation",
                   defaultDisplay := "Y", display := "Y", valid := true,
                   validationMessage := none, enums := [] }],
        loops := [], valid := true, display := "Y" }],
    schema := { saveframeSchema := [("citations", "Cit")], tagSchema := [],
                overridesDictList := [], fileUploadTypes := [] },
    categories := [{ prettyName := "Cit", category := "citations",
                     valid := true, display := "Y" }],
    enumerationTies := [], source := none, dataStore := emptyStore,
    valid := true }

/-- The override rule of the specification's example, with the override view
value left as a parameter: fire on `_Assembly.Polymer_type = "protein"` and
force the display of `_Assembly.Molecular_mass`. -/
def assemblyRule (v : String) : OverrideRule :=
  { condTagPfx := "_Assembly", condTag := "_Assembly.Polymer_type",
    regex := SimpleRegex.exactMatch "protein", tagCategory := "_Assembly",
    ruleTag := "_Assembly.Molecular_mass", overrideViewValue := v,
    sfCategory := "assembly" }

/-- The specification example's entry: one `_Assembly` saveframe with
`Polymer_type = "protein"` and a `Molecular_mass` tag whose schema display
default is the parameter `d`. -/
def assemblyEntry (d v : String) : Entry :=
  { entryID := "c4", saveframes := [
      { name := "asm1", category := "assembly", tagPfx := "_Assembly",
        tags := [{ name := "_Assembly.Polymer_type", value := some "protein",
                   defaultDisplay := "N", display := "N", valid := true,
                   validationMessage := none, enums := [] },
                 { name := "_Assembly.Molecular_mass", value := none,
                   defaultDisplay := d, display := d, valid := true,
                   validationMessage := none, enums := [] }],
        loops := [], valid := true, display := "H" }],
    schema := { saveframeSchema := [("assembly", "Assembly")], tagSchema := [],
                overridesDictList := [assemblyRule v], fileUploadTypes := [] },
    categories := [], enumerationTies := [], source := none,
    dataStore := emptyStore, valid := true }

/-- A refresh fixed point: one generic saveframe whose state already equals
its refreshed state. -/
def c2wit : Entry :=
  { entryID := "c2", saveframes := [
      { name := "s1", category := "gen", tagPfx := "_Gen",
        tags := [{ name := "_Gen.Name", value := some "v",
                   defaultDisplay := "Y", display := "Y", valid := true,
                   validationMessage := none, enums := [] }],
        loops := [], valid := true, display := "Y" }],
    schema := { saveframeSchema := [("gen", "General")], tagSchema := [],
                overridesDictList := [], fileUploadTypes := [] },
    categories := [{ prettyName := "General", category := "gen",
                     valid := true, display := "Y" }],
    enumerationTies := [], source := none, dataStore := emptyStore,
    valid := true }

/-- A round-trip fixed point: its tags agree with the schema tag table, it
has an (empty) `_Upload_data` loop, and its data store is the one
`regenerateDataStore` rebuilds. -/
def c1wit : Entry :=
  { entryID := "c1", saveframes := [
      { name := "sf1", category := "test", tagPfx := "_Test",
        tags := [{ name := "_Test.Name", value := some "hello",
                   defaultDisplay := "Y", display := "Y", valid := true,
                   validationMessage := none, enums := [] }],
        loops := [{ category := "_Upload_data",
                    columns := ["Data_file_ID", "Data_file_name"], data := [] }],
        valid := true, display := "Y" }],
    schema := { saveframeSchema := [("test", "Test")],
                tagSchema := [("_Test.Name",
                  { userFullView := "Y", enums := [] })],
                overridesDictList := [], fileUploadTypes := [] },
    categories := [{ prettyName := "Test", category := "test",
                     valid := true, display := "Y" }],
    enumerationTies := [], source := none, dataStore := emptyStore,
    valid := true }

/-- A two-saveframe entry: the first lacks the queried tag, the second holds
`_A.B = "val"`. -/
def c7wit : Entry :=
  { entryID := "c7", saveframes := [
      { name := "a0", category := "a", tagPfx := "_Z", tags := [], loops := [],
        valid := true, display := "Y" },
      { name := "a1", category := "a", tagPfx := "_A",
        tags := [{ name := "_A.B", value := some "val", defaultDisplay := "Y",
                   display := "Y", valid := true, validationMessage := none,
                   enums := [] }],
        loops := [], valid := true, display := "Y" }],
    schema := emptySchema, categories := [], enumerationTies := [],
    source := none, dataStore := emptyStore, valid := true }

/-- A two-saveframe entry: the first holds `_A.B = ""`, the second holds
`_A.B = "x"`. -/
def c10wit : Entry :=
  { entryID := "c10", saveframes := [
      { name := "b0", category := "a", tagPfx := "_A",
        tags := [{ name := "_A.B", value := some "", defaultDisplay := "Y",
                   display := "Y", valid := true, validationMessage := none,
                   enums := [] }],
        loops := [], valid := true, display := "Y" },
      { name := "b1", category := "a", tagPfx := "_A",
        tags := [{ name := "_A.B", value := some "x", defaultDisplay := "Y",
                   display := "Y", valid := true, validationMessage := none,
                   enums := [] }],
        loops := [], valid := true, display := "Y" }],
    schema := emptySchema, categories := [], enumerationTies := [],
    source := none, dataStore := emptyStore, valid := true }

/-- A tracked file with no selections. -/
def c8file : DataFile := { fileName := some "data.txt", selections := [], percent := 100 }

/-- An entry with an empty `_Upload_data` loop whose store tracks one file
with zero selections. -/
def c8wit : Entry :=
  { entryID := "c8", saveframes := [
      { name := "u1", category := "deposited_data_files", tagPfx := "_Upload",
        tags := [],
        loops := [{ category := "_Upload_data", columns := [], data := [] }],
        valid := true, display := "H" }],
    schema := emptySchema, categories := [], enumerationTies := [],
    source := none,
    dataStore := { dataFiles := [c8file], dropDownList := [] }, valid := true }

/-- The `updateUploadedData` result of `c8wit`: the loop holds exactly the
one placeholder row. -/
def c8witResult : Entry :=
  { entryID := "c8", saveframes := [
      { name := "u1", category := "deposited_data_files", tagPfx := "_Upload",
        tags := [],
        loops := [{ category := "_Upload_data", columns := [],
                    data := [mkUploadRow "c8" 1 1 (some "data.txt") none none] }],
        valid := true, display := "H" }],
    schema := emptySchema, categories := [], enumerationTies := [],
    source := none,
    dataStore := { dataFiles := [c8file], dropDownList := [] }, valid := true }

/-- A tracked file used by the rebuilt-identifier witness. -/
def c9file : DataFile := { fileName := some "f.bin", selections := [], percent := 100 }

/-- An `updateUploadedData` fixed point: the loop's data already equals the
rebuilt rows for its store. -/
def c9wit : Entry :=
  { entryID := "c9", saveframes := [
      { name := "u1", category := "deposited_data_files", tagPfx := "_Upload",
        tags := [],
        loops := [{ category := "_Upload_data", columns := [],
                    data := buildUploadRows "c9" [c9file] }],
        valid := true, display := "H" }],
    schema := emptySchema, categories := [], enumerationTies := [],
    source := none,
    dataStore := { dataFiles := [c9file], dropDownList := [] }, valid := true }

/-- A stale upload row with identifier 7. -/
def cex9Row : List STag := [mkLoopTag "Data_file_ID" (some "7")]

/-- An entry whose store tracks no files while its `_Upload_data` loop still
holds a stale row. -/
def cex9Entry : Entry :=
  { entryID := "c9x", saveframes := [
      { name := "u1", category := "deposited_data_files", tagPfx := "_Upload",
        tags := [],
        loops := [{ category := "_Upload_data", columns := [],
                    data := [cex9Row] }],
        valid := true, display := "H" }],
    schema := emptySchema, categories := [], enumerationTies := [],
    source := none, dataStore := emptyStore, valid := true }

/-- The loops of a category across a saveframe list, in traversal order
(list-level form of `Entry.getLoopsByCategory`). -/
def loopsOfList (sfs : List Saveframe) (c : String) : List SLoop :=
  (sfs.map (fun sf => sf.loops.filter (fun l => l.category == c))).flatten

/-- Sequential-identifier property of a rebuilt `_Upload_data` row list: the
k-th row starts with a `Data_file_ID` tag holding the string of k+1. -/
def uploadIdsOK (rows : List (List STag)) : Prop :=
  ∀ k row, rows.get? k = some row →
    row.head? = some (mkLoopTag "Data_file_ID" (some (toString (k + 1))))

/-- The reference-citation test of the citation check (entry.ts lines
226-232): some saveframe of category "citations" carries the value
"entry citation" for its `_Citation.Class` tag. -/
def hasEntryCitation (x : Entry) : Bool :=
  (x.getSaveframesByCategory "citations").any
    (fun f => f.getTagValue "_Citation.Class" == some "entry citation")

/-- A tag's data passes domain validation: no value, no enumeration, or a
value inside the enumeration (the condition `STag.validate` turns into the
validity flag). -/
def STag.dataOK (t : STag) : Bool :=
  match t.value with
  | none => true
  | some v => t.enums.isEmpty || t.enums.contains v

/-- Every tag of the entry, saveframe-level and loop-level, passes domain
validation. -/
def Entry.allDataOK (x : Entry) : Bool :=
  x.saveframes.all (fun sf =>
    sf.tags.all STag.dataOK &&
    sf.loops.all (fun l => l.data.all (fun row => row.all STag.dataOK)))

theorem getTagValueAux_eq_none (fqtn : String) (skip : Option Nat) :
    ∀ (l : List Saveframe) (i : Nat),
      (∀ k sf, l.get? k = some sf → skip ≠ some (i + k) → sf.findTag fqtn = none) →
      Entry.getTagValueAux fqtn skip l i = none := by
  intro l
  induction l with
  | nil => intro i _; rfl
  | cons sf rest ih =>
    intro i h
    cases hsk : skip == some i with
    | true =>
      simp only [Entry.getTagValueAux, hsk, if_true]
      refine ih (i + 1) ?_
      intro k s hk hne
      refine h (k + 1) s (by simpa using hk) ?_
      have hidx : i + (k + 1) = i + 1 + k := by omega
      rw [hidx]; exact hne
    | false =>
      have h0 : sf.findTag fqtn = none := by
        refine h 0 sf rfl ?_
        have := ne_of_beq_false hsk
        simpa using this
      have hval : sf.getTagValue fqtn = none := by
        simp [Saveframe.getTagValue, h0]
      simp only [Entry.getTagValueAux, hsk, if_false, hval, jsTruthy]
      refine ih (i + 1) ?_
      intro k s hk hne
      refine h (k + 1) s (by simpa using hk) ?_
      have hidx : i + (k + 1) = i + 1 + k := by omega
      rw [hidx]; exact hne

theorem getTagValueAux_eq_found (fqtn : String) (skip : Option Nat) :
    ∀ (l : List Saveframe) (i k : Nat) (sf : Saveframe) (v : String),
      l.get? k = some sf → skip ≠ some (i + k) →
      sf.getTagValue fqtn = some v → v ≠ "" →
      (∀ j sf', j < k → l.get? j = some sf' → skip ≠ some (i + j) → sf'.findTag fqtn = none) →
      Entry.getTagValueAux fqtn skip l i = some v := by
  intro l
  induction l with
  | nil => intro i k sf v hk; simp at hk
  | cons sf0 rest ih =>
    intro i k sf v hk hne hval hv hearlier
    cases hsk : skip == some i with
    | true =>
      have hskeq : skip = some i := eq_of_beq hsk
      cases k with
      | zero => exact absurd hskeq (by simpa using hne)
      | succ kk =>
        simp only [Entry.getTagValueAux, hsk, if_true]
        refine ih (i + 1) kk sf v (by simpa using hk) ?_ hval hv ?_
        · have hidx : i + (kk + 1) = i + 1 + kk := by omega
          rw [← hidx]; exact hne
        · intro j sf' hj hgj hnej
          refine hearlier (j + 1) sf' (by omega) (by simpa using hgj) ?_
          have hidx : i + (j + 1) = i + 1 + j := by omega
          rw [hidx]; exact hnej
    | false =>
      cases k with
      | zero =>
        have hsf : sf0 = sf := by simpa using hk
        subst hsf
        simp only [Entry.getTagValueAux, hsk, if_false, hval, jsTruthy]
        simp [hv]
      | succ kk =>
        have h0 : sf0.findTag fqtn = none := by
          refine hearlier 0 sf0 (Nat.succ_pos kk) rfl ?_
          have := ne_of_beq_false hsk
          simpa using this
        have hval0 : sf0.getTagValue fqtn = none := by
          simp [Saveframe.getTagValue, h0]
        simp only [Entry.getTagValueAux, hsk, if_false, hval0, jsTruthy]
        refine ih (i + 1) kk sf v (by simpa using hk) ?_ hval hv ?_
        · have hidx : i + (kk + 1) = i + 1 + kk := by omega
          rw [← hidx]; exact hne
        · intro j sf' hj hgj hnej
          refine hearlier (j + 1) sf' (by omega) (by simpa using hgj) ?_
          have hidx : i + (j + 1) = i + 1 + j := by omega
          rw [hidx]; exact hnej

theorem getTagValueAux_ne_empty (fqtn : String) (skip : Option Nat) :
    ∀ (l : List Saveframe) (i : Nat) (s : String),
      Entry.getTagValueAux fqtn skip l i = some s → s ≠ "" := by
  intro l
  induction l with
  | nil => intro i s h; exact absurd h (by simp [Entry.getTagValueAux])
  | cons sf rest ih =>
    intro i s h
    simp only [Entry.getTagValueAux] at h
    cases hsk : skip == some i with
    | true =>
      rw [hsk] at h
      simp at h
      exact ih (i + 1) s h
    | false =>
      rw [hsk] at h
      cases ht : jsTruthy (sf.getTagValue fqtn) with
      | true =>
        rw [ht] at h
        simp at h
        rw [h] at ht
        simpa [jsTruthy] using ht
      | false =>
        rw [ht] at h
        simp at h
        exact ih (i + 1) s h

theorem getTagValueAux_skip_none_idx (fqtn : String) :
    ∀ (l : List Saveframe) (i j : Nat),
      Entry.getTagValueAux fqtn none l i = Entry.getTagValueAux fqtn none l j := by
  intro l
  induction l with
  | nil => intro i j; rfl
  | cons sf rest ih =>
    intro i j
    simp only [Entry.getTagValueAux]
    cases jsTruthy (sf.getTagValue fqtn) with
    | true => rfl
    | false => simpa using ih (i + 1) (j + 1)

/-- C7: when no saveframe (other than the skipped one) holds a tag with the
requested fully-qualified name, `Entry.getTagValue` returns the defined
not-found result `null` (and, being total, never throws); and when the first
saveframe holding the tag (in list order, excluding the skipped one) carries
a non-null, non-empty value, that value is returned. -/
theorem C7_getTagValue_notFound_and_firstMatch :
    (∀ (e : Entry) (fqtn : String) (skip : Option Nat),
        (∀ k sf, e.saveframes.get? k = some sf → skip ≠ some k → sf.findTag fqtn = none) →
        e.getTagValue fqtn skip = none) ∧
    (∀ (e : Entry) (fqtn : String) (skip : Option Nat) (i : Nat) (sf : Saveframe) (v : String),
        e.saveframes.get? i = some sf → skip ≠ some i →
        sf.getTagValue fqtn = some v → v ≠ "" →
        (∀ j sf', j < i → e.saveframes.get? j = some sf' → skip ≠ some j →
          sf'.findTag fqtn = none) →
        e.getTagValue fqtn skip = some v) := by
  constructor
  · intro e fqtn skip h
    exact getTagValueAux_eq_none fqtn skip e.saveframes 0 (by simpa using h)
  · intro e fqtn skip i sf v hi hne hval hv hearly
    exact getTagValueAux_eq_found fqtn skip e.saveframes 0 i sf v hi
      (by simpa using hne) hval hv (by simpa using hearly)

/-- Witness for C7 at a concrete two-saveframe entry: a name held by no
saveframe yields `null`; a name first held (with a non-empty value) by the
second saveframe yields that value. -/
theorem C7_witness :
    c7wit.getTagValue "_A.C" none = none ∧ c7wit.getTagValue "_A.B" none = some "val" := by
  constructor
  · refine C7_getTagValue_notFound_and_firstMatch.1 c7wit "_A.C" none ?_
    intro k sf hk _
    match k, hk with
    | 0, hk => injection hk with h; rw [← h]; decide
    | 1, hk => injection hk with h; rw [← h]; decide
    | (n + 2), hk => exact absurd hk (by simp [c7wit])
  · refine C7_getTagValue_notFound_and_firstMatch.2 c7wit "_A.B" none 1
      { name := "a1", category := "a", tagPfx := "_A",
        tags := [{ name := "_A.B", value := some "val", defaultDisplay := "Y",
                   display := "Y", valid := true, validationMessage := none,
                   enums := [] }],
        loops := [], valid := true, display := "Y" } "val" (by decide)
      (by decide) (by decide) (by decide) ?_
    intro j sf' hj hgj _
    match j, hj, hgj with
    | 0, _, hgj => injection hgj with h; rw [← h]; decide

/-- C10: `Entry.getTagValue` never returns the empty string (a tag found with
an empty value behaves as not found, `null` being returned instead), and a
leading saveframe whose lookup yields `null` or `""` is passed over: the scan
result equals the scan of the remaining saveframes. -/
theorem C10_getTagValue_skips_empty :
    (∀ (e : Entry) (fqtn : String) (skip : Option Nat) (s : String),
        e.getTagValue fqtn skip = some s → s ≠ "") ∧
    (∀ (e : Entry) (sf : Saveframe) (rest : List Saveframe) (fqtn : String),
        e.saveframes = sf :: rest →
        (sf.getTagValue fqtn = none ∨ sf.getTagValue fqtn = some "") →
        e.getTagValue fqtn none = Entry.getTagValue { e with saveframes := rest } fqtn none) := by
  constructor
  · intro e fqtn skip s h
    exact getTagValueAux_ne_empty fqtn skip e.saveframes 0 s h
  · intro e sf rest fqtn hsf hv
    have hfalsy : jsTruthy (sf.getTagValue fqtn) = false := by
      cases hv with
      | inl h => simp [h, jsTruthy]
      | inr h => simp [h, jsTruthy]
    show Entry.getTagValueAux fqtn none e.saveframes 0 = Entry.getTagValueAux fqtn none rest 0
    rw [hsf]
    simp only [Entry.getTagValueAux, hfalsy]
    simpa using getTagValueAux_skip_none_idx fqtn rest 1 0

/-- Witness for C10 at a concrete entry whose first saveframe holds the tag
with an empty value and whose second holds "x": the non-empty guarantee at
the returned value, and the pass-over equation at the first saveframe. -/
theorem C10_witness :
    ("x" ≠ "") ∧
    (c10wit.getTagValue "_A.B" none =
      Entry.getTagValue { c10wit with saveframes := c10wit.saveframes.drop 1 } "_A.B" none) := by
  constructor
  · exact C10_getTagValue_skips_empty.1 c10wit "_A.B" none "x" (by decide)
  · exact C10_getTagValue_skips_empty.2 c10wit _ _ "_A.B" rfl (by decide)

/-- Counterexample to C5: an override rule whose conditional tag prefix
matches a saveframe but whose conditional tag is absent makes `refresh()`
throw — the read `tagDict[rule['Conditional tag']].value` is unguarded — so
an absent referenced tag is not always non-fatal. -/
theorem C5_counterexample :
    cex5Entry.refreshE = Except.error "TypeError: cannot read value of undefined" := by
  decide

/-- C5 as amended: the guarded case is the rule's target tag (with an
override view value other than 'O'): a fired rule whose target tag is absent
from the resolved saveframe is skipped with a logged warning, leaving the
entry unchanged, and does not throw. -/
theorem C5_amended_targetGap_skipped (e : Entry) (i : Nat) (rule : OverrideRule)
    (sf : Saveframe) (ct : STag)
    (hsf : e.saveframes.get? i = some sf)
    (hpfx : rule.condTagPfx = sf.tagPfx)
    (hct : sf.findTag rule.condTag = some ct)
    (hre : rule.regex.test (jsStr ct.value) = true)
    (hcat : rule.tagCategory = sf.tagPfx)
    (hov : (rule.overrideViewValue == "O") = false)
    (htgt : sf.findTag rule.ruleTag = none) :
    e.applyRule i rule = Except.ok e := by
  unfold Entry.applyRule
  rw [hsf]
  simp [hpfx, hct, hre, hcat, hov, htgt]

/-- Witness for the amended C5 at a concrete entry and rule: the rule fires,
its target tag is absent, and the rule application leaves the entry
unchanged. -/
theorem C5_witness :
    c5wEntry.applyRule 0 c5wRule = Except.ok c5wEntry := by
  refine C5_amended_targetGap_skipped c5wEntry 0 c5wRule
    { name := "t1", category := "t", tagPfx := "_T",
      tags := [{ name := "_T.C", value := some "v", defaultDisplay := "Y",
                 display := "Y", valid := true, validationMessage := none,
                 enums := [] }],
      loops := [], valid := true, display := "Y" }
    { name := "_T.C", value := some "v", defaultDisplay := "Y",
      display := "Y", valid := true, validationMessage := none, enums := [] }
    (by decide) (by decide) (by decide) (by decide) (by decide) (by decide)
    (by decide)

/-- Counterexample to C6: a saveframe category absent from the schema's
saveframe table makes `updateCategories()` — and therefore `refresh()` —
throw a lookup `TypeError` instead of flagging the category. -/
theorem C6_counterexample :
    cex6Entry.updateCategoriesE =
      Except.error "TypeError: cannot read category_group_view_name of undefined" ∧
    cex6Entry.refreshE =
      Except.error "TypeError: cannot read category_group_view_name of undefined" := by
  constructor
  · decide
  · decide

/-- C4: for the specification's example rule — conditional prefix
`_Assembly`, conditional tag `_Assembly.Polymer_type` matching `^protein$`,
target tag category `_Assembly`, target tag `_Assembly.Molecular_mass` — with
any override view value other than 'O', and a saveframe with prefix
`_Assembly` and `Polymer_type = "protein"`: after `refresh()` the
`Molecular_mass` tag's display equals the rule's override view value,
whatever its schema default `d` was. -/
theorem C4_override_forces_display (d v : String) (hv : (v == "O") = false) :
    firstFrameTagDisplay ((assemblyEntry d v).refreshE) "_Assembly.Molecular_mass" = some v := by
  have h1 : (jsLower "assembly" == "citations") = false := by decide
  have h2 : ("_Assembly.Polymer_type" == "_Assembly.Molecular_mass") = false := by decide
  have h3 : (("assembly" : String) == "assembly") = true := by decide
  have h4 : (jsLower "assembly" == jsLower "assembly") = true := by decide
  simp +decide [assemblyEntry, assemblyRule, Entry.refreshE, Entry.resetPass,
    Saveframe.resetDisplays, SLoop.resetDisplays, STag.resetDisplay,
    Entry.overridePass, Entry.overridePassAux, Entry.applyRulesAt, Entry.applyRule,
    Saveframe.findTag, SimpleRegex.test, jsStr, Saveframe.setTagDisplay,
    Saveframe.setTagDisplayDefault, Entry.setSaveframeAt, hv,
    Saveframe.refreshSf, STag.validate, SLoop.validate, Saveframe.aggregateDisplay,
    Entry.citationPass, Entry.getSaveframesByCategory, markCitationFrames,
    Entry.updateCategoriesE, buildCatRows, dedupFirst, dedupFirstAux, alistGet,
    catDisplayGo, computeEntryValid, firstFrameTagDisplay,
    Saveframe.markCitationInvalid, Saveframe.getTagValue, h1, h2, h3, h4]

/-- Witness for C4: schema default "H", override view value "Y" — after
refresh the display is "Y". -/
theorem C4_witness :
    (("Y" == "O") = false) ∧
    firstFrameTagDisplay ((assemblyEntry "H" "Y").refreshE) "_Assembly.Molecular_mass" = some "Y" :=
  ⟨by decide, C4_override_forces_display "H" "Y" (by decide)⟩

theorem getLoopsByCategory_eq (e : Entry) (c : String) :
    e.getLoopsByCategory c = loopsOfList e.saveframes c := rfl

theorem uploadRowsOf_eq (e : Entry) :
    uploadRowsOf e = ((loopsOfList e.saveframes "_Upload_data").head?).map (fun l => l.data) := rfl

theorem map_set_congr {α β : Type} (f : α → β) :
    ∀ (l : List α) (i : Nat) (a b : α), l.get? i = some b → f a = f b →
      (l.set i a).map f = l.map f := by
  intro l
  induction l with
  | nil => intro i a b h _; simp at h
  | cons x xs ih =>
    intro i a b h hf
    cases i with
    | zero =>
      have hx : x = b := by simpa using h
      subst hx
      show f a :: xs.map f = f x :: xs.map f
      rw [hf]
    | succ n =>
      show f x :: (xs.set n a).map f = f x :: xs.map f
      rw [ih n a b (by simpa using h) hf]

theorem filter_replaceLoopFirst (cat : String) (d : List (List STag)) :
    ∀ (ls : List SLoop) (l0 : SLoop),
      ((ls.filter (fun l => l.category == cat)).head? = some l0) →
      (((replaceLoopDataFirst cat ls d).filter (fun l => l.category == cat)).head?
        = some { l0 with data := d }) := by
  intro ls
  induction ls with
  | nil => intro l0 h; simp at h
  | cons l rest ih =>
    intro l0 h
    cases hc : l.category == cat with
    | true =>
      simp only [List.filter_cons, hc, if_true] at h
      have hl : l = l0 := by simpa using h
      subst hl
      show ((replaceLoopDataFirst cat (l :: rest) d).filter (fun x => x.category == cat)).head?
        = some { l with data := d }
      unfold replaceLoopDataFirst
      rw [if_pos hc]
      simp only [List.filter_cons, hc, if_true]
      rfl
    | false =>
      simp only [List.filter_cons, hc] at h
      simp only [Bool.false_eq_true, if_false] at h
      show ((replaceLoopDataFirst cat (l :: rest) d).filter (fun x => x.category == cat)).head?
        = some { l0 with data := d }
      unfold replaceLoopDataFirst
      rw [if_neg (by simp [hc])]
      simp only [List.filter_cons, hc, Bool.false_eq_true, if_false]
      exact ih l0 h

theorem loopsOfList_replaceFirst (cat : String) (d : List (List STag)) :
    ∀ (sfs : List Saveframe) (l0 : SLoop),
      (loopsOfList sfs cat).head? = some l0 →
      (loopsOfList (replaceFirstLoopData cat sfs d) cat).head? = some { l0 with data := d } := by
  intro sfs
  induction sfs with
  | nil => intro l0 h; simp [loopsOfList] at h
  | cons sf rest ih =>
    intro l0 h
    have hexp : loopsOfList (sf :: rest) cat
        = sf.loops.filter (fun l => l.category == cat) ++ loopsOfList rest cat := by
      simp [loopsOfList]
    rw [hexp] at h
    cases hany : sf.loops.any (fun l => l.category == cat) with
    | true =>
      have hne : sf.loops.filter (fun l => l.category == cat) ≠ [] := by
        rcases List.any_eq_true.mp hany with ⟨x, hx, hpx⟩
        intro hnil
        have : x ∈ sf.loops.filter (fun l => l.category == cat) :=
          List.mem_filter.mpr ⟨hx, hpx⟩
        rw [hnil] at this
        simp at this
      have hhead : (sf.loops.filter (fun l => l.category == cat)).head? = some l0 := by
        cases hfe : sf.loops.filter (fun l => l.category == cat) with
        | nil => exact absurd hfe hne
        | cons y t => rw [hfe] at h; simpa using h
      unfold replaceFirstLoopData
      rw [if_pos hany]
      have hexp2 : loopsOfList ({ sf with loops := replaceLoopDataFirst cat sf.loops d } :: rest) cat
          = (replaceLoopDataFirst cat sf.loops d).filter (fun l => l.category == cat)
            ++ loopsOfList rest cat := by
        simp [loopsOfList]
      rw [hexp2]
      have := filter_replaceLoopFirst cat d sf.loops l0 hhead
      rw [List.head?_append]
      rw [this]
      rfl
    | false =>
      have hfil : sf.loops.filter (fun l => l.category == cat) = [] := by
        rw [List.filter_eq_nil_iff]
        intro x hx
        have := List.any_eq_false.mp hany x hx
        simp [this]
      rw [hfil, List.nil_append] at h
      unfold replaceFirstLoopData
      rw [if_neg (by simp [hany])]
      have hexp2 : loopsOfList (sf :: replaceFirstLoopData cat rest d) cat
          = sf.loops.filter (fun l => l.category == cat)
            ++ loopsOfList (replaceFirstLoopData cat rest d) cat := by
        simp [loopsOfList]
      rw [hexp2, hfil, List.nil_append]
      exact ih l0 h

theorem foldl_preserves_loops {β : Type} (g : Saveframe → β → Saveframe)
    (hg : ∀ s b, (g s b).loops = s.loops) :
    ∀ (l : List β) (sf : Saveframe), (l.foldl g sf).loops = sf.loops := by
  intro l
  induction l with
  | nil => intro sf; rfl
  | cons b bs ih => intro sf; rw [List.foldl_cons, ih, hg]

theorem updateInterviewFrame_loops (store : DataFileStore) (sf : Saveframe) :
    (updateInterviewFrame store sf).loops = sf.loops := by
  simp only [updateInterviewFrame]
  have h2 := foldl_preserves_loops
    (fun s (f : DataFile) => f.selections.foldl
      (fun s2 sel => s2.setTagValueIfPresent ("_Entry_interview." ++ sel.interviewKey) "yes") s)
    (fun s f => foldl_preserves_loops
      (fun s2 sel => s2.setTagValueIfPresent ("_Entry_interview." ++ sel.interviewKey) "yes")
      (fun s2 sel => rfl) f.selections s)
    store.dataFiles
    (store.dropDownList.foldl
      (fun s item => s.setTagValueIfPresent ("_Entry_interview." ++ item.interviewKey) "no") sf)
  rw [h2]
  exact foldl_preserves_loops
    (fun s item => s.setTagValueIfPresent ("_Entry_interview." ++ item.interviewKey) "no")
    (fun s item => rfl) store.dropDownList sf

/-- C8: on an entry whose data store tracks exactly one file with zero
(content-type, description) selections, a successful `updateUploadedData()`
leaves the `_Upload_data` loop with exactly one row for that file: the
identifier tags (`Data_file_ID`, `Entry_ID`, `Deposited_data_files_ID`) are
filled in, the file-name tag carries the file's name, and every data tag
(content type, saveframe category, syntax, immutable flag, `Sf_ID`) is null,
as spelled out by `mkUploadRow`. -/
theorem C8_placeholder_row (e : Entry) (f : DataFile) (e2 : Entry)
    (hfiles : e.dataStore.dataFiles = [f]) (hsel : f.selections = [])
    (hok : e.updateUploadedDataE = Except.ok e2) :
    uploadRowsOf e2 = some [mkUploadRow e.entryID 1 1 f.fileName none none] := by
  have hnew : buildUploadRows e.entryID e.dataStore.dataFiles
      = [mkUploadRow e.entryID 1 1 f.fileName none none] := by
    rw [hfiles]
    simp [buildUploadRows, buildUploadRowsAux, fileUploadRows, hsel, pushUploadRow]
  rw [Entry.updateUploadedDataE, hnew] at hok
  generalize hd : [mkUploadRow e.entryID 1 1 f.fileName none none] = d at hok ⊢
  have hdemp : d.isEmpty = false := by rw [← hd]; rfl
  rw [hdemp] at hok
  simp only [Bool.false_eq_true, if_false] at hok
  cases hle : e.getLoopsByCategory "_Upload_data" with
  | nil => rw [hle] at hok; simp at hok
  | cons l0 t =>
    rw [hle] at hok
    simp only [List.isEmpty_cons, Bool.false_eq_true, if_false] at hok
    have hhead : (loopsOfList e.saveframes "_Upload_data").head? = some l0 := by
      rw [← getLoopsByCategory_eq, hle]; rfl
    have hup1 : uploadRowsOf { e with saveframes := replaceFirstLoopData "_Upload_data" e.saveframes d } = some d := by
      rw [uploadRowsOf_eq]
      have hrep := loopsOfList_replaceFirst "_Upload_data" d e.saveframes l0 hhead
      simp only [hrep]
      rfl
    split at hok
    · split at hok
      · rename_i x1 i hFind x2 hgi
        injection hok with he2
        rw [← he2]; exact hup1
      · rename_i x1 i hFind x2 sfi hgi
        injection hok with he2
        rw [← he2]
        show uploadRowsOf { e with saveframes := (replaceFirstLoopData "_Upload_data" e.saveframes d).set i (updateInterviewFrame e.dataStore sfi) } = some d
        rw [uploadRowsOf_eq]
        have hset : loopsOfList ((replaceFirstLoopData "_Upload_data" e.saveframes d).set i (updateInterviewFrame e.dataStore sfi))
            "_Upload_data" = loopsOfList (replaceFirstLoopData "_Upload_data" e.saveframes d) "_Upload_data" := by
          unfold loopsOfList
          rw [map_set_congr _ (replaceFirstLoopData "_Upload_data" e.saveframes d) i _ sfi hgi]
          rw [updateInterviewFrame_loops]
        rw [hset]
        rw [uploadRowsOf_eq] at hup1
        exact hup1
    · split at hok
      · injection hok with he2
        rw [← he2]; exact hup1
      · exact absurd hok (by simp)

/-- Witness for C8 at a concrete entry with one selection-free tracked file:
the rebuilt loop holds exactly the placeholder row. -/
theorem C8_witness :
    c8wit.updateUploadedDataE = Except.ok c8witResult ∧
    uploadRowsOf c8witResult = some [mkUploadRow c8wit.entryID 1 1 c8file.fileName none none] :=
  ⟨by decide, C8_placeholder_row c8wit c8file c8witResult (by decide) (by decide) (by decide)⟩

theorem pushUploadRow_length (eid : String) (fi : Nat) (f : DataFile)
    (sel : Option Selection) (acc : List (List STag)) :
    (pushUploadRow eid fi f sel acc).length = acc.length + 1 := by
  simp [pushUploadRow]

theorem foldl_push_length (eid : String) (fi : Nat) (f : DataFile) :
    ∀ (sels : List Selection) (acc : List (List STag)),
      (sels.foldl (fun a sel => pushUploadRow eid fi f (some sel) a) acc).length
        = acc.length + sels.length := by
  intro sels
  induction sels with
  | nil => intro acc; rfl
  | cons s ss ih =>
    intro acc
    rw [List.foldl_cons, ih, pushUploadRow_length, List.length_cons]
    omega

theorem fileUploadRows_length_ge (eid : String) (fi : Nat) (f : DataFile)
    (acc : List (List STag)) :
    acc.length + 1 ≤ (fileUploadRows eid fi f acc).length := by
  unfold fileUploadRows
  cases hse : f.selections.isEmpty with
  | true => simp [pushUploadRow_length]
  | false =>
    rw [if_neg (by simp [hse])]
    rw [foldl_push_length]
    have hpos : 0 < f.selections.length := by
      cases hfe : f.selections with
      | nil => rw [hfe] at hse; simp at hse
      | cons a as => simp [hfe]
    omega

theorem buildUploadRowsAux_length_mono (eid : String) :
    ∀ (files : List DataFile) (i : Nat) (acc : List (List STag)),
      acc.length ≤ (buildUploadRowsAux eid files i acc).length := by
  intro files
  induction files with
  | nil => intro i acc; exact Nat.le_refl _
  | cons f rest ih =>
    intro i acc
    have h1 := fileUploadRows_length_ge eid (i + 1) f acc
    have h2 := ih (i + 1) (fileUploadRows eid (i + 1) f acc)
    unfold buildUploadRowsAux
    omega

theorem buildUploadRows_ne_nil (eid : String) (files : List DataFile)
    (hne : files ≠ []) : buildUploadRows eid files ≠ [] := by
  cases files with
  | nil => exact absurd rfl hne
  | cons f rest =>
    unfold buildUploadRows buildUploadRowsAux
    rw [Nat.zero_add]
    intro h0
    have h3 := congrArg List.length h0
    simp only [List.length_nil] at h3
    have h1 := fileUploadRows_length_ge eid 1 f []
    have h2 := buildUploadRowsAux_length_mono eid rest 1 (fileUploadRows eid 1 f [])
    simp only [List.length_nil] at h1
    omega

theorem pushUploadRow_idsOK (eid : String) (fi : Nat) (f : DataFile)
    (sel : Option Selection) (acc : List (List STag)) (h : uploadIdsOK acc) :
    uploadIdsOK (pushUploadRow eid fi f sel acc) := by
  intro k row hk
  unfold pushUploadRow at hk
  rcases Nat.lt_trichotomy k acc.length with hlt | heq | hgt
  · rw [List.get?_append hlt] at hk
    exact h k row hk
  · subst heq
    rw [List.get?_append_right (Nat.le_refl _)] at hk
    simp at hk
    rw [← hk]
    rfl
  · have hlen : (acc ++ [mkUploadRow eid (acc.length + 1) fi f.fileName
        (sel.map (fun s => s.contentType)) (sel.map (fun s => s.description))]).length ≤ k := by
      simp
      omega
    rw [List.get?_eq_none.mpr hlen] at hk
    exact absurd hk (by simp)

theorem foldl_push_idsOK (eid : String) (fi : Nat) (f : DataFile) :
    ∀ (sels : List Selection) (acc : List (List STag)), uploadIdsOK acc →
      uploadIdsOK (sels.foldl (fun a sel => pushUploadRow eid fi f (some sel) a) acc) := by
  intro sels
  induction sels with
  | nil => intro acc h; exact h
  | cons s ss ih =>
    intro acc h
    rw [List.foldl_cons]
    exact ih _ (pushUploadRow_idsOK eid fi f (some s) acc h)

theorem fileUploadRows_idsOK (eid : String) (fi : Nat) (f : DataFile)
    (acc : List (List STag)) (h : uploadIdsOK acc) :
    uploadIdsOK (fileUploadRows eid fi f acc) := by
  unfold fileUploadRows
  cases hse : f.selections.isEmpty with
  | true =>
    rw [if_pos rfl]
    exact pushUploadRow_idsOK eid fi f none acc h
  | false =>
    rw [if_neg (by simp [hse])]
    exact foldl_push_idsOK eid fi f f.selections acc h

theorem buildUploadRowsAux_idsOK (eid : String) :
    ∀ (files : List DataFile) (i : Nat) (acc : List (List STag)), uploadIdsOK acc →
      uploadIdsOK (buildUploadRowsAux eid files i acc) := by
  intro files
  induction files with
  | nil => intro i acc h; exact h
  | cons f rest ih =>
    intro i acc h
    exact ih (i + 1) _ (fileUploadRows_idsOK eid (i + 1) f acc h)

theorem buildUploadRows_idsOK (eid : String) (files : List DataFile) :
    uploadIdsOK (buildUploadRows eid files) := by
  refine buildUploadRowsAux_idsOK eid files 0 [] ?_
  intro k row hk
  exact absurd hk (by simp)

/-- C9 as amended: when the data store tracks at least one file, a successful
`updateUploadedData()` fully replaces the `_Upload_data` loop's contents with
the rebuilt rows, whose `Data_file_ID` values are the 1-based sequential
integers in row order.  (When the store is empty the rebuilt row set is empty
and the source's `if (newData.length)` guard leaves the stale rows in place —
see the counterexample.) -/
theorem C9_rows_replaced_ids_sequential (e : Entry) (e2 : Entry)
    (hne : e.dataStore.dataFiles ≠ [])
    (hok : e.updateUploadedDataE = Except.ok e2) :
    uploadRowsOf e2 = some (buildUploadRows e.entryID e.dataStore.dataFiles) ∧
    uploadIdsOK (buildUploadRows e.entryID e.dataStore.dataFiles) := by
  refine ⟨?_, buildUploadRows_idsOK e.entryID e.dataStore.dataFiles⟩
  have hdne := buildUploadRows_ne_nil e.entryID e.dataStore.dataFiles hne
  rw [Entry.updateUploadedDataE] at hok
  generalize hd : buildUploadRows e.entryID e.dataStore.dataFiles = d at hok hdne ⊢
  have hdemp : d.isEmpty = false := by
    cases d with
    | nil => exact absurd rfl hdne
    | cons a l => rfl
  rw [hdemp] at hok
  simp only [Bool.false_eq_true, if_false] at hok
  cases hle : e.getLoopsByCategory "_Upload_data" with
  | nil => rw [hle] at hok; simp at hok
  | cons l0 t =>
    rw [hle] at hok
    simp only [List.isEmpty_cons, Bool.false_eq_true, if_false] at hok
    have hhead : (loopsOfList e.saveframes "_Upload_data").head? = some l0 := by
      rw [← getLoopsByCategory_eq, hle]; rfl
    have hup1 : uploadRowsOf { e with saveframes := replaceFirstLoopData "_Upload_data" e.saveframes d } = some d := by
      rw [uploadRowsOf_eq]
      have hrep := loopsOfList_replaceFirst "_Upload_data" d e.saveframes l0 hhead
      simp only [hrep]
      rfl
    split at hok
    · split at hok
      · rename_i x1 i hFind x2 hgi
        injection hok with he2
        rw [← he2]; exact hup1
      · rename_i x1 i hFind x2 sfi hgi
        injection hok with he2
        rw [← he2]
        show uploadRowsOf { e with saveframes := (replaceFirstLoopData "_Upload_data" e.saveframes d).set i (updateInterviewFrame e.dataStore sfi) } = some d
        rw [uploadRowsOf_eq]
        have hset : loopsOfList ((replaceFirstLoopData "_Upload_data" e.saveframes d).set i (updateInterviewFrame e.dataStore sfi))
            "_Upload_data" = loopsOfList (replaceFirstLoopData "_Upload_data" e.saveframes d) "_Upload_data" := by
          unfold loopsOfList
          rw [map_set_congr _ (replaceFirstLoopData "_Upload_data" e.saveframes d) i _ sfi hgi]
          rw [updateInterviewFrame_loops]
        rw [hset]
        rw [uploadRowsOf_eq] at hup1
        exact hup1
    · split at hok
      · injection hok with he2
        rw [← he2]; exact hup1
      · exact absurd hok (by simp)

/-- Counterexample to C9: with zero tracked files the rebuilt row set is
empty, and `updateUploadedData()` leaves the previous (stale) row in the loop
instead of replacing the contents, so the loop is not "exactly the newly
rebuilt rows". -/
theorem C9_counterexample :
    cex9Entry.updateUploadedDataE = Except.ok cex9Entry ∧
    uploadRowsOf cex9Entry = some [cex9Row] ∧
    buildUploadRows cex9Entry.entryID cex9Entry.dataStore.dataFiles = [] ∧
    some [cex9Row] ≠ some ([] : List (List STag)) := by
  refine ⟨by decide, by decide, by decide, by decide⟩

/-- Witness for the amended C9 at a concrete entry tracking one file: the
loop contents equal the rebuilt rows and the identifiers are sequential. -/
theorem C9_witness :
    uploadRowsOf c9wit = some (buildUploadRows c9wit.entryID c9wit.dataStore.dataFiles) ∧
    uploadIdsOK (buildUploadRows c9wit.entryID c9wit.dataStore.dataFiles) :=
  C9_rows_replaced_ids_sequential c9wit c9wit (by decide) (by decide)

theorem STag.scrub_resetDisplay (t : STag) : (t.resetDisplay).scrub = t.scrub := rfl

theorem STag.scrub_validate (t : STag) : (t.validate).scrub = t.scrub := by
  unfold STag.validate STag.scrub
  cases h : t.value with
  | none => simp
  | some v =>
    by_cases he : t.enums = [] ∨ v ∈ t.enums <;> simp [he]

theorem Saveframe.scrub_resetDisplays (sf : Saveframe) :
    (sf.resetDisplays).scrub = sf.scrub := by
  unfold Saveframe.resetDisplays Saveframe.scrub
  simp only [List.map_map]
  have h1 : STag.scrub ∘ STag.resetDisplay = STag.scrub := funext fun t => rfl
  have h2 : SLoop.scrub ∘ SLoop.resetDisplays = SLoop.scrub := by
    refine funext fun l => ?_
    unfold SLoop.scrub SLoop.resetDisplays
    simp only [Function.comp_apply, List.map_map]
    have : (List.map STag.scrub ∘ List.map STag.resetDisplay) = List.map STag.scrub := by
      refine funext fun row => ?_
      simp only [Function.comp_apply, List.map_map, h1]
    simp [this]
  rw [h1, h2]

theorem Saveframe.scrub_setTagDisplay (sf : Saveframe) (n v : String) :
    (sf.setTagDisplay n v).scrub = sf.scrub := by
  unfold Saveframe.setTagDisplay Saveframe.scrub
  simp only [List.map_map]
  congr 1
  refine List.map_congr_left fun t _ => ?_
  by_cases h : t.name = n <;> simp [h, STag.scrub]

theorem Saveframe.scrub_setTagDisplayDefault (sf : Saveframe) (n : String) :
    (sf.setTagDisplayDefault n).scrub = sf.scrub := by
  unfold Saveframe.setTagDisplayDefault Saveframe.scrub
  simp only [List.map_map]
  congr 1
  refine List.map_congr_left fun t _ => ?_
  by_cases h : t.name = n <;> simp [h, STag.scrub]

theorem SLoop.scrub_setVisibilityLoop (l : SLoop) (r : OverrideRule) :
    (l.setVisibility r).scrub = l.scrub := by
  unfold SLoop.setVisibility SLoop.scrub
  simp only [List.map_map]
  congr 1
  refine List.map_congr_left fun row _ => ?_
  simp only [Function.comp_apply, List.map_map]
  refine List.map_congr_left fun t _ => ?_
  by_cases h : t.name = r.ruleTag <;> simp [h, STag.scrub]

theorem Saveframe.scrub_setVisibility (sf : Saveframe) (r : OverrideRule) :
    (sf.setVisibility r).scrub = sf.scrub := by
  unfold Saveframe.setVisibility Saveframe.scrub
  simp only [List.map_map]
  congr 1
  · refine List.map_congr_left fun t _ => ?_
    by_cases h : t.name = r.ruleTag <;> simp [h, STag.scrub]
  · refine List.map_congr_left fun l _ => ?_
    exact SLoop.scrub_setVisibilityLoop l r

theorem SLoop.scrub_validateLoop (l : SLoop) : (l.validate).scrub = l.scrub := by
  unfold SLoop.validate SLoop.scrub
  simp only [List.map_map]
  congr 1
  refine List.map_congr_left fun row _ => ?_
  simp only [Function.comp_apply, List.map_map]
  refine List.map_congr_left fun t _ => ?_
  exact STag.scrub_validate t

theorem Saveframe.scrub_refreshSf (sf : Saveframe) : (sf.refreshSf).scrub = sf.scrub := by
  unfold Saveframe.refreshSf Saveframe.scrub
  simp only [List.map_map]
  congr 1
  · refine List.map_congr_left fun t _ => ?_
    exact STag.scrub_validate t
  · refine List.map_congr_left fun l _ => ?_
    exact SLoop.scrub_validateLoop l

theorem Saveframe.scrub_markCitationInvalid (sf : Saveframe) :
    (sf.markCitationInvalid).scrub = sf.scrub := by
  unfold Saveframe.markCitationInvalid Saveframe.scrub
  simp only [List.map_map]
  congr 1
  refine List.map_congr_left fun t _ => ?_
  by_cases h : t.name = "_Citation.Class" <;> simp [h, STag.scrub]
theorem scrub_setSaveframeAt (e : Entry) (i : Nat) (sf sf' : Saveframe)
    (hg : e.saveframes.get? i = some sf) (hs : sf'.scrub = sf.scrub) :
    ({ e with saveframes := e.saveframes.set i sf' }).scrub = e.scrub := by
  unfold Entry.scrub
  congr 1
  exact map_set_congr Saveframe.scrub e.saveframes i sf' sf hg hs

theorem Saveframe.scrub_setLoopsVisibility (sf : Saveframe) (r : OverrideRule) :
    ({ sf with loops := sf.loops.map (fun l => if l.category == r.tagCategory then l.setVisibility r else l) } : Saveframe).scrub = sf.scrub := by
  unfold Saveframe.scrub
  simp only [List.map_map]
  congr 1
  refine List.map_congr_left fun l _ => ?_
  by_cases hc : l.category = r.tagCategory <;> simp [hc, SLoop.scrub_setVisibilityLoop]

theorem scrub_mapSetVisibility (e : Entry) (r : OverrideRule) :
    ({ e with saveframes := e.saveframes.map (fun (f : Saveframe) => if jsLower f.category == jsLower r.sfCategory then f.setVisibility r else f) }).scrub = e.scrub := by
  unfold Entry.scrub
  congr 1
  simp only [List.map_map]
  refine List.map_congr_left fun sf _ => ?_
  by_cases hp : jsLower sf.category = jsLower r.sfCategory <;> simp [hp, Saveframe.scrub_setVisibility]

theorem applyRule_fields (e : Entry) (i : Nat) (r : OverrideRule) (y : Entry)
    (h : e.applyRule i r = Except.ok y) : { e with saveframes := y.saveframes } = y := by
  unfold Entry.applyRule at h
  repeat (any_goals split at h)
  all_goals first
    | (injection h with h2; rw [← h2]; try rfl)
    | exact absurd h (by simp)

theorem applyRule_scrub (e : Entry) (i : Nat) (r : OverrideRule) (y : Entry)
    (h : e.applyRule i r = Except.ok y) : y.scrub = e.scrub := by
  unfold Entry.applyRule at h
  repeat (any_goals split at h)
  all_goals first
    | (injection h with h2; rw [← h2])
    | exact absurd h (by simp)
  all_goals first
    | exact scrub_setSaveframeAt _ _ _ _ (by assumption) (Saveframe.scrub_setTagDisplayDefault _ _)
    | exact scrub_setSaveframeAt _ _ _ _ (by assumption) (Saveframe.scrub_setTagDisplay _ _ _)
    | exact scrub_setSaveframeAt _ _ _ _ (by assumption) (Saveframe.scrub_setLoopsVisibility _ _)
    | exact scrub_mapSetVisibility _ _

theorem applyRulesAt_fields (i : Nat) :
    ∀ (rs : List OverrideRule) (e y : Entry),
      Entry.applyRulesAt i e rs = Except.ok y → { e with saveframes := y.saveframes } = y := by
  intro rs
  induction rs with
  | nil => intro e y h; injection h with h2; rw [← h2]
  | cons r rest ih =>
    intro e y h
    unfold Entry.applyRulesAt at h
    cases hr : e.applyRule i r with
    | error m => rw [hr] at h; exact absurd h (by simp)
    | ok e2 =>
      rw [hr] at h
      have h1 := applyRule_fields e i r e2 hr
      have h2 := ih e2 y h
      rw [← h2, ← h1]

theorem applyRulesAt_scrub (i : Nat) :
    ∀ (rs : List OverrideRule) (e y : Entry),
      Entry.applyRulesAt i e rs = Except.ok y → y.scrub = e.scrub := by
  intro rs
  induction rs with
  | nil => intro e y h; injection h with h2; rw [h2]
  | cons r rest ih =>
    intro e y h
    unfold Entry.applyRulesAt at h
    cases hr : e.applyRule i r with
    | error m => rw [hr] at h; exact absurd h (by simp)
    | ok e2 =>
      rw [hr] at h
      rw [ih e2 y h, applyRule_scrub e i r e2 hr]

theorem overridePassAux_fields :
    ∀ (idxs : List Nat) (e y : Entry),
      Entry.overridePassAux e idxs = Except.ok y → { e with saveframes := y.saveframes } = y := by
  intro idxs
  induction idxs with
  | nil => intro e y h; injection h with h2; rw [← h2]
  | cons i rest ih =>
    intro e y h
    unfold Entry.overridePassAux at h
    cases hr : Entry.applyRulesAt i e e.schema.overridesDictList with
    | error m => rw [hr] at h; exact absurd h (by simp)
    | ok e2 =>
      rw [hr] at h
      have h1 := applyRulesAt_fields i e.schema.overridesDictList e e2 hr
      have h2 := ih e2 y h
      rw [← h2, ← h1]

theorem overridePassAux_scrub :
    ∀ (idxs : List Nat) (e y : Entry),
      Entry.overridePassAux e idxs = Except.ok y → y.scrub = e.scrub := by
  intro idxs
  induction idxs with
  | nil => intro e y h; injection h with h2; rw [h2]
  | cons i rest ih =>
    intro e y h
    unfold Entry.overridePassAux at h
    cases hr : Entry.applyRulesAt i e e.schema.overridesDictList with
    | error m => rw [hr] at h; exact absurd h (by simp)
    | ok e2 =>
      rw [hr] at h
      rw [ih e2 y h, applyRulesAt_scrub i e.schema.overridesDictList e e2 hr]

theorem pass3_scrub (e : Entry) :
    ({ e with saveframes := e.saveframes.map Saveframe.refreshSf }).scrub = e.scrub := by
  unfold Entry.scrub
  congr 1
  simp only [List.map_map]
  exact List.map_congr_left fun sf _ => Saveframe.scrub_refreshSf sf

theorem markCitationFrames_scrub :
    ∀ (sfs l : List Saveframe), markCitationFrames sfs = Except.ok l →
      l.map Saveframe.scrub = sfs.map Saveframe.scrub := by
  intro sfs
  induction sfs with
  | nil => intro l h; injection h with h2; rw [← h2]
  | cons sf rest ih =>
    intro l h
    unfold markCitationFrames at h
    split at h
    · cases hf : sf.findTag "_Citation.Class" with
      | none => rw [hf] at h; exact absurd h (by simp)
      | some t =>
        rw [hf] at h
        cases hm : markCitationFrames rest with
        | error m => rw [hm] at h; exact absurd h (by simp)
        | ok tail =>
          rw [hm] at h
          injection h with h2
          rw [← h2]
          simp only [List.map_cons]
          rw [Saveframe.scrub_markCitationInvalid, ih tail hm]
    · cases hm : markCitationFrames rest with
      | error m => rw [hm] at h; exact absurd h (by simp)
      | ok tail =>
        rw [hm] at h
        injection h with h2
        rw [← h2]
        simp only [List.map_cons]
        rw [ih tail hm]

theorem citationPass_fields (e y : Entry) (h : e.citationPass = Except.ok y) :
    { e with saveframes := y.saveframes } = y := by
  unfold Entry.citationPass at h
  cases hb : (e.getSaveframesByCategory "citations").any
      (fun f => f.getTagValue "_Citation.Class" == some "entry citation") with
  | true =>
    simp only [hb, if_true] at h
    injection h with h2; rw [← h2]
  | false =>
    simp only [hb, Bool.false_eq_true, if_false] at h
    cases hm : markCitationFrames e.saveframes with
    | error m => rw [hm] at h; exact absurd h (by simp)
    | ok sfs => rw [hm] at h; injection h with h2; rw [← h2]

theorem citationPass_scrub (e y : Entry) (h : e.citationPass = Except.ok y) :
    y.scrub = e.scrub := by
  unfold Entry.citationPass at h
  cases hb : (e.getSaveframesByCategory "citations").any
      (fun f => f.getTagValue "_Citation.Class" == some "entry citation") with
  | true =>
    simp only [hb, if_true] at h
    injection h with h2; rw [h2]
  | false =>
    simp only [hb, Bool.false_eq_true, if_false] at h
    cases hm : markCitationFrames e.saveframes with
    | error m => rw [hm] at h; exact absurd h (by simp)
    | ok sfs =>
      rw [hm] at h
      injection h with h2
      rw [← h2]
      unfold Entry.scrub
      congr 1
      exact markCitationFrames_scrub e.saveframes sfs hm

theorem updateCategoriesE_fields (e y : Entry) (h : e.updateCategoriesE = Except.ok y) :
    { e with categories := y.categories } = y := by
  unfold Entry.updateCategoriesE at h
  cases hb : buildCatRows e (dedupFirst (e.saveframes.map (fun sf => sf.category))) with
  | error m => rw [hb] at h; exact absurd h (by simp)
  | ok rows => rw [hb] at h; injection h with h2; rw [← h2]

theorem updateCategoriesE_scrub (e y : Entry) (h : e.updateCategoriesE = Except.ok y) :
    y.scrub = e.scrub := by
  have := updateCategoriesE_fields e y h
  rw [← this]
  rfl

theorem Entry.scrub_resetPass (e : Entry) : (e.resetPass).scrub = e.scrub := by
  unfold Entry.resetPass Entry.scrub
  simp only [List.map_map]
  congr 1
  exact List.map_congr_left fun sf _ => Saveframe.scrub_resetDisplays sf

theorem refreshE_scrub (e y : Entry) (h : e.refreshE = Except.ok y) : y.scrub = e.scrub := by
  unfold Entry.refreshE at h
  cases ho : (e.resetPass).overridePass with
  | error m => rw [ho] at h; exact absurd h (by simp)
  | ok e2 =>
    rw [ho] at h
    dsimp only [] at h
    cases hc : Entry.citationPass { e2 with saveframes := e2.saveframes.map Saveframe.refreshSf } with
    | error m => rw [hc] at h; exact absurd h (by simp)
    | ok e4 =>
      rw [hc] at h
      dsimp only [] at h
      cases hu : e4.updateCategoriesE with
      | error m => rw [hu] at h; exact absurd h (by simp)
      | ok e5 =>
        rw [hu] at h
        injection h with h2
        rw [← h2]
        have s5 : ({ e5 with valid := computeEntryValid e5.saveframes } : Entry).scrub = e5.scrub := rfl
        rw [s5]
        rw [updateCategoriesE_scrub e4 e5 hu]
        rw [citationPass_scrub _ e4 hc]
        rw [pass3_scrub e2]
        rw [overridePassAux_scrub _ _ e2 ho]
        exact Entry.scrub_resetPass e
theorem mem_dedupFirstAux (x : String) :
    ∀ (l seen : List String), x ∈ l → x ∈ seen ∨ x ∈ dedupFirstAux seen l := by
  intro l
  induction l with
  | nil => intro seen h; simp at h
  | cons y ys ih =>
    intro seen h
    unfold dedupFirstAux
    cases hx : seen.contains y with
    | true =>
      rw [if_pos (rfl : (true : Bool) = true)]
      rcases List.mem_cons.mp h with h1 | h1
      · subst h1; exact Or.inl (List.mem_of_elem_eq_true hx)
      · exact ih seen h1
    | false =>
      rw [if_neg (by simp : ¬((false : Bool) = true))]
      rcases List.mem_cons.mp h with h1 | h1
      · subst h1; exact Or.inr (List.mem_cons_self _ _)
      · rcases ih (seen ++ [y]) h1 with h2 | h2
        · rcases List.mem_append.mp h2 with h3 | h3
          · exact Or.inl h3
          · have : x = y := by simpa using h3
            subst this
            exact Or.inr (List.mem_cons_self _ _)
        · exact Or.inr (List.mem_cons_of_mem _ h2)

theorem mem_dedupFirst (x : String) (l : List String) (h : x ∈ l) : x ∈ dedupFirst l := by
  rcases mem_dedupFirstAux x l [] h with h1 | h1
  · simp at h1
  · exact h1

theorem buildCatRows_error (e : Entry) :
    ∀ (cats : List String), (∃ c ∈ cats, alistGet e.schema.saveframeSchema c = none) →
      ∃ m, buildCatRows e cats = Except.error m := by
  intro cats
  induction cats with
  | nil => intro h; simp at h
  | cons c0 rest ih =>
    intro h
    unfold buildCatRows
    cases hl : alistGet e.schema.saveframeSchema c0 with
    | none => exact ⟨_, rfl⟩
    | some pretty =>
      rcases h with ⟨c, hc, hcl⟩
      rcases List.mem_cons.mp hc with h1 | h1
      · subst h1; rw [hl] at hcl; exact absurd hcl (by simp)
      · rcases ih ⟨c, h1, hcl⟩ with ⟨m, hm⟩
        rw [hm]
        exact ⟨m, rfl⟩

theorem updateCategoriesE_error (e : Entry)
    (h : ∃ c ∈ e.saveframes.map (fun sf => sf.category), alistGet e.schema.saveframeSchema c = none) :
    ∃ m, e.updateCategoriesE = Except.error m := by
  rcases h with ⟨c, hc, hcl⟩
  rcases buildCatRows_error e (dedupFirst (e.saveframes.map (fun sf => sf.category)))
    ⟨c, mem_dedupFirst c _ hc, hcl⟩ with ⟨m, hm⟩
  refine ⟨m, ?_⟩
  unfold Entry.updateCategoriesE
  rw [hm]

theorem scrub_cat_map (e1 e2 : Entry) (h : e1.scrub = e2.scrub) :
    e1.saveframes.map (fun sf => sf.category) = e2.saveframes.map (fun sf => sf.category) := by
  have h2 := congrArg (fun x : Entry => x.saveframes.map (fun sf => sf.category)) h
  simpa [Entry.scrub, List.map_map, Function.comp, Saveframe.scrub] using h2

/-- C6 as amended: a saveframe whose category does not resolve in the
schema's saveframe table makes `updateCategories()` throw its lookup
`TypeError`, and `refresh()` — which runs the same lookup in its final pass —
reports an error as well; the unresolved category is never recorded as a
validation flag. -/
theorem C6_amended_unresolved_category_throws (e : Entry)
    (h : ∃ c ∈ e.saveframes.map (fun sf => sf.category), alistGet e.schema.saveframeSchema c = none) :
    (∃ m, e.updateCategoriesE = Except.error m) ∧ (∃ m, e.refreshE = Except.error m) := by
  refine ⟨updateCategoriesE_error e h, ?_⟩
  unfold Entry.refreshE
  cases ho : (e.resetPass).overridePass with
  | error m => exact ⟨m, by dsimp only []⟩
  | ok e2 =>
    dsimp only []
    cases hc : Entry.citationPass { e2 with saveframes := e2.saveframes.map Saveframe.refreshSf } with
    | error m => exact ⟨m, by dsimp only []⟩
    | ok e4 =>
      dsimp only []
      have hscrub : e4.scrub = e.scrub := by
        rw [citationPass_scrub _ e4 hc, pass3_scrub e2, overridePassAux_scrub _ _ e2 ho,
          Entry.scrub_resetPass e]
      have hschema : e4.schema = e.schema := by
        have f1 := citationPass_fields _ e4 hc
        have f2 := overridePassAux_fields _ _ e2 ho
        have g1 : e2.schema = e4.schema := by
          have := congrArg Entry.schema f1
          simpa using this
        have g2 : e.schema = e2.schema := by
          have := congrArg Entry.schema f2
          simpa [Entry.resetPass] using this
        rw [← g1, ← g2]
      have hcats := scrub_cat_map e4 e hscrub
      have h4 : ∃ c ∈ e4.saveframes.map (fun sf => sf.category),
          alistGet e4.schema.saveframeSchema c = none := by
        rw [hcats, hschema]
        exact h
      rcases updateCategoriesE_error e4 h4 with ⟨m, hm⟩
      rw [hm]
      exact ⟨m, by dsimp only []⟩

/-- Witness for the amended C6 at a concrete entry with category "unknown"
absent from the schema: both operations report errors. -/
theorem C6_witness :
    (∃ m, c6wEntry.updateCategoriesE = Except.error m) ∧
    (∃ m, c6wEntry.refreshE = Except.error m) :=
  C6_amended_unresolved_category_throws c6wEntry ⟨"unknown", by decide, by decide⟩
theorem Saveframe.shape_scrub (sf : Saveframe) : (sf.scrub).shape = sf.shape := by
  unfold Saveframe.scrub Saveframe.shape
  simp only [List.map_map]
  have h1 : STag.shape ∘ STag.scrub = STag.shape := funext fun t => rfl
  have h2 : SLoop.shape ∘ SLoop.scrub = SLoop.shape := by
    refine funext fun l => ?_
    unfold SLoop.shape SLoop.scrub
    simp only [Function.comp_apply, List.map_map]
    have : (List.map STag.shape ∘ List.map STag.scrub) = List.map STag.shape := by
      refine funext fun row => ?_
      simp only [Function.comp_apply, List.map_map, h1]
    simp [this]
  rw [h1, h2]

theorem scrub_shape (e1 e2 : Entry) (h : e1.scrub = e2.scrub) : e1.shape = e2.shape := by
  have h2 := congrArg (fun x : Entry => x.saveframes.map Saveframe.shape) h
  unfold Entry.shape
  simp only [Entry.scrub, List.map_map] at h2
  have hc : Saveframe.shape ∘ Saveframe.scrub = Saveframe.shape :=
    funext fun sf => Saveframe.shape_scrub sf
  rw [hc] at h2
  exact h2

theorem refreshE_shape (e y : Entry) (h : e.refreshE = Except.ok y) : y.shape = e.shape :=
  scrub_shape y e (refreshE_scrub e y h)

theorem mkSchemaTag_shape (schema : Schema) (n : String) (v : Option String) :
    (mkSchemaTag schema n v).shape = (n, v) := by
  unfold mkSchemaTag
  cases alistGet schema.tagSchema n <;> rfl

theorem sfShape_fromJSON (schema : Schema) (sf : Saveframe) :
    (saveframeFromJSON schema sf.toJSON).shape = sf.shape := by
  unfold saveframeFromJSON Saveframe.toJSON Saveframe.shape
  simp only [List.map_map, Prod.mk.injEq, true_and]
  refine ⟨?_, ?_⟩
  · refine List.map_congr_left fun t _ => ?_
    exact mkSchemaTag_shape schema t.name t.value
  · refine List.map_congr_left fun l _ => ?_
    unfold SLoop.shape
    simp only [Function.comp_apply, List.map_map, Prod.mk.injEq, true_and]
    refine List.map_congr_left fun row _ => ?_
    simp only [Function.comp_apply, List.map_map]
    refine List.map_congr_left fun t _ => ?_
    exact mkSchemaTag_shape schema t.name t.value

theorem fold_addSaveframes (schema : Schema) :
    ∀ (l : List SaveframeJSON) (acc : Entry),
      l.foldl (fun a j => a.addSaveframeNoRefresh (saveframeFromJSON schema j) (-1)) acc
        = { acc with saveframes := acc.saveframes ++ l.map (saveframeFromJSON schema) } := by
  intro l
  induction l with
  | nil => intro acc; simp
  | cons j rest ih =>
    intro acc
    rw [List.foldl_cons, ih]
    have hadd : acc.addSaveframeNoRefresh (saveframeFromJSON schema j) (-1)
        = { acc with saveframes := acc.saveframes ++ [saveframeFromJSON schema j] } := by
      unfold Entry.addSaveframeNoRefresh
      rw [if_pos (by norm_num)]
    rw [hadd]
    simp

theorem regenerateDataStoreE_fields (e y : Entry) (h : e.regenerateDataStoreE = Except.ok y) :
    { e with dataStore := y.dataStore } = y := by
  unfold Entry.regenerateDataStoreE at h
  cases hh : (e.getLoopsByCategory "_Upload_data").head? with
  | none => rw [hh] at h; exact absurd h (by simp)
  | some dataLoop =>
    rw [hh] at h
    dsimp only [] at h
    cases hr : regenFold e.schema.fileUploadTypes dataLoop.data [] with
    | error m => rw [hr] at h; exact absurd h (by simp)
    | ok acc => rw [hr] at h; injection h with h2; rw [← h2]

/-- C1: rehydrating the snapshot produced by `toJSON` (with the schema
snapshot the loader re-injects) yields an entry with the same saveframe
count, the same saveframe order, names and categories, and the same value for
every tag in every saveframe and loop — the shape projection collects exactly
those data.  Validity and display are recomputed by the `refresh()` the
loader performs and are not claimed. -/
theorem C1_roundTrip_preserves_shape (e e' : Entry)
    (h : entryFromJSONE (Entry.toJSONfull e) = Except.ok e') :
    e'.saveframes.length = e.saveframes.length ∧ Entry.shape e' = Entry.shape e := by
  have hshape : Entry.shape e' = Entry.shape e := by
    unfold entryFromJSONE at h
    rw [fold_addSaveframes] at h
    cases hr : Entry.regenerateDataStoreE { Entry.fresh (Entry.toJSONfull e).entry_id (Entry.toJSONfull e).schema with
        saveframes := (Entry.fresh (Entry.toJSONfull e).entry_id (Entry.toJSONfull e).schema).saveframes
          ++ (Entry.toJSONfull e).saveframes.map (saveframeFromJSON (Entry.toJSONfull e).schema) } with
    | error m => rw [hr] at h; exact absurd h (by simp)
    | ok er =>
      rw [hr] at h
      have hrf := refreshE_shape er e' h
      have hfields := regenerateDataStoreE_fields _ er hr
      have hsf := congrArg Entry.saveframes hfields
      rw [hrf]
      unfold Entry.shape
      rw [← hsf]
      simp only [Entry.fresh, Entry.toJSONfull, List.nil_append, List.map_map]
      refine List.map_congr_left fun sf _ => ?_
      simp only [Function.comp_apply]
      exact sfShape_fromJSON e.schema sf
  refine ⟨?_, hshape⟩
  have h1 := congrArg List.length hshape
  unfold Entry.shape at h1
  simpa using h1

/-- Witness for C1 at a concrete entry that round-trips: the rebuilt entry
has the same saveframe count and shape. -/
theorem C1_witness :
    c1wit.saveframes.length = c1wit.saveframes.length ∧
    Entry.shape c1wit = Entry.shape c1wit :=
  C1_roundTrip_preserves_shape c1wit c1wit (by decide)

theorem listSetMap {α β : Type} (f : α → β) :
    ∀ (l : List α) (i : Nat) (a : α), (l.map f).set i (f a) = (l.set i a).map f := by
  intro l
  induction l with
  | nil => intro i a; rfl
  | cons x xs ih =>
    intro i a
    cases i with
    | zero => rfl
    | succ n =>
      show f x :: (xs.map f).set n (f a) = f x :: (xs.set n a).map f
      rw [ih n a]

theorem findTag_scrubV (sf : Saveframe) (n : String) :
    (sf.scrubV).findTag n = (sf.findTag n).map STag.scrubV := by
  unfold Saveframe.findTag Saveframe.scrubV
  simp only [List.find?_map]
  rfl

theorem setTagDisplay_scrubV (sf : Saveframe) (n v : String) :
    (sf.scrubV).setTagDisplay n v = (sf.setTagDisplay n v).scrubV := by
  unfold Saveframe.setTagDisplay Saveframe.scrubV
  simp only [List.map_map]
  congr 1
  refine List.map_congr_left fun t _ => ?_
  by_cases h : t.name = n <;> simp [h, STag.scrubV]

theorem setTagDisplayDefault_scrubV (sf : Saveframe) (n : String) :
    (sf.scrubV).setTagDisplayDefault n = (sf.setTagDisplayDefault n).scrubV := by
  unfold Saveframe.setTagDisplayDefault Saveframe.scrubV
  simp only [List.map_map]
  congr 1
  refine List.map_congr_left fun t _ => ?_
  by_cases h : t.name = n <;> simp [h, STag.scrubV]

theorem SLoop.setVisibilityLoop_scrubV (l : SLoop) (r : OverrideRule) :
    (l.scrubV).setVisibility r = (l.setVisibility r).scrubV := by
  unfold SLoop.setVisibility SLoop.scrubV
  simp only [List.map_map]
  congr 1
  refine List.map_congr_left fun row _ => ?_
  simp only [Function.comp_apply, List.map_map]
  refine List.map_congr_left fun t _ => ?_
  by_cases h : t.name = r.ruleTag <;> simp [h, STag.scrubV]

theorem Saveframe.setVisibility_scrubV (sf : Saveframe) (r : OverrideRule) :
    (sf.scrubV).setVisibility r = (sf.setVisibility r).scrubV := by
  unfold Saveframe.setVisibility Saveframe.scrubV
  simp only [List.map_map]
  congr 1
  · refine List.map_congr_left fun t _ => ?_
    by_cases h : t.name = r.ruleTag <;> simp [h, STag.scrubV]
  · refine List.map_congr_left fun l _ => ?_
    exact SLoop.setVisibilityLoop_scrubV l r

theorem scrubV_tagPfx (sf : Saveframe) : (sf.scrubV).tagPfx = sf.tagPfx := rfl

theorem scrubV_loops (sf : Saveframe) : (sf.scrubV).loops = sf.loops.map SLoop.scrubV := rfl

theorem scrubMid_saveframes (e : Entry) :
    (Entry.scrubMid e).saveframes = e.saveframes.map Saveframe.scrubV := rfl

theorem setSaveframeAt_scrubMid (e : Entry) (i : Nat) (sf' : Saveframe) :
    (Entry.scrubMid e).setSaveframeAt i (Saveframe.scrubV sf') = Entry.scrubMid (e.setSaveframeAt i sf') := by
  unfold Entry.setSaveframeAt Entry.scrubMid
  congr 1
  exact listSetMap Saveframe.scrubV e.saveframes i sf'

theorem loopsAny_scrubV (sf : Saveframe) (r : OverrideRule) :
    ((sf.scrubV).loops.any (fun l => l.category == r.tagCategory))
      = sf.loops.any (fun l => l.category == r.tagCategory) := by
  rw [scrubV_loops, List.any_map]
  rfl

theorem mixedLoops_scrubV (sf : Saveframe) (r : OverrideRule) :
    (Saveframe.mk (Saveframe.scrubV sf).name (Saveframe.scrubV sf).category sf.tagPfx
      (Saveframe.scrubV sf).tags
      (List.map (fun l => if (l.category == r.tagCategory) = true then l.setVisibility r else l)
        (Saveframe.scrubV sf).loops)
      (Saveframe.scrubV sf).valid (Saveframe.scrubV sf).display)
      = Saveframe.scrubV (Saveframe.mk sf.name sf.category sf.tagPfx sf.tags
          (List.map (fun l => if (l.category == r.tagCategory) = true then l.setVisibility r else l)
            sf.loops)
          sf.valid sf.display) := by
  unfold Saveframe.scrubV
  dsimp only
  rw [Saveframe.mk.injEq]
  refine ⟨rfl, rfl, rfl, rfl, ?_, rfl, rfl⟩
  simp only [List.map_map]
  refine List.map_congr_left fun l _ => ?_
  simp only [Function.comp_apply]
  have hc2 : (SLoop.scrubV l).category = l.category := rfl
  by_cases h : l.category = r.tagCategory
  · simp [hc2, h, SLoop.setVisibilityLoop_scrubV]
  · simp [hc2, h]

theorem mixedMapVis_scrubMid (e : Entry) (r : OverrideRule) :
    (Entry.mk (Entry.scrubMid e).entryID
      (List.map (fun f => if (jsLower f.category == jsLower r.sfCategory) = true then f.setVisibility r else f)
        (Entry.scrubMid e).saveframes)
      (Entry.scrubMid e).schema (Entry.scrubMid e).categories (Entry.scrubMid e).enumerationTies
      (Entry.scrubMid e).source (Entry.scrubMid e).dataStore (Entry.scrubMid e).valid)
      = Entry.scrubMid (Entry.mk e.entryID
          (List.map (fun f => if (jsLower f.category == jsLower r.sfCategory) = true then f.setVisibility r else f)
            e.saveframes)
          e.schema e.categories e.enumerationTies e.source e.dataStore e.valid) := by
  unfold Entry.scrubMid
  dsimp only
  rw [Entry.mk.injEq]
  refine ⟨rfl, ?_, rfl, rfl, rfl, rfl, rfl, rfl⟩
  simp only [List.map_map]
  refine List.map_congr_left fun sf _ => ?_
  simp only [Function.comp_apply]
  have hcat : (Saveframe.scrubV sf).category = sf.category := rfl
  by_cases h : jsLower sf.category = jsLower r.sfCategory
  · simp [hcat, h, Saveframe.setVisibility_scrubV]
  · simp [hcat, h]

theorem applyRule_scrubMid (e : Entry) (i : Nat) (r : OverrideRule) :
    (Entry.scrubMid e).applyRule i r = Except.map Entry.scrubMid (e.applyRule i r) := by
  unfold Entry.applyRule
  rw [scrubMid_saveframes, List.get?_map]
  cases hg : e.saveframes.get? i with
  | none => rfl
  | some sf =>
    dsimp only [Option.map]
    simp only [scrubV_tagPfx]
    cases hpfx : (r.condTagPfx == sf.tagPfx) with
    | false => simp only [hpfx, Bool.false_eq_true, if_false]; rfl
    | true =>
      simp only [hpfx, if_true]
      rw [findTag_scrubV]
      cases hft : sf.findTag r.condTag with
      | none => rfl
      | some ct =>
        dsimp only [Option.map]
        have hval : (STag.scrubV ct).value = ct.value := rfl
        rw [hval]
        cases hre : r.regex.test (jsStr ct.value) with
        | false => simp only [hre, Bool.false_eq_true, if_false]; rfl
        | true =>
          simp only [hre, if_true]
          cases hcat : (r.tagCategory == sf.tagPfx) with
          | true =>
            simp only [hcat, if_true]
            cases hov : (r.overrideViewValue == "O") with
            | true =>
              simp only [hov, if_true]
              rw [findTag_scrubV]
              cases hrt : sf.findTag r.ruleTag with
              | none => rfl
              | some t =>
                dsimp only [Option.map, Except.map]
                rw [setTagDisplayDefault_scrubV, setSaveframeAt_scrubMid]
            | false =>
              simp only [hov, Bool.false_eq_true, if_false]
              rw [findTag_scrubV]
              cases hrt : sf.findTag r.ruleTag with
              | none => rfl
              | some t =>
                dsimp only [Option.map, Except.map]
                rw [setTagDisplay_scrubV, setSaveframeAt_scrubMid]
          | false =>
            simp only [hcat, Bool.false_eq_true, if_false]
            rw [loopsAny_scrubV]
            cases hany : sf.loops.any (fun l => l.category == r.tagCategory) with
            | true =>
              simp only [hany, if_true]
              dsimp only [Except.map]
              rw [mixedLoops_scrubV, setSaveframeAt_scrubMid]
            | false =>
              simp only [hany, Bool.false_eq_true, if_false]
              dsimp only [Except.map]
              rw [← scrubMid_saveframes, mixedMapVis_scrubMid]
theorem STag.resetDisplay_scrub (t : STag) :
    (STag.scrub t).resetDisplay = STag.scrubV (t.resetDisplay) := rfl

theorem SLoop.resetDisplaysLoop_scrub (l : SLoop) :
    (SLoop.scrub l).resetDisplays = SLoop.scrubV (l.resetDisplays) := by
  unfold SLoop.scrub SLoop.scrubV SLoop.resetDisplays
  dsimp only
  congr 1
  simp only [List.map_map]
  refine List.map_congr_left fun row _ => ?_
  simp only [Function.comp_apply, List.map_map]
  exact List.map_congr_left fun t _ => rfl

theorem Saveframe.resetDisplays_scrub (sf : Saveframe) :
    (Saveframe.scrub sf).resetDisplays = Saveframe.scrubV (sf.resetDisplays) := by
  unfold Saveframe.scrub Saveframe.scrubV Saveframe.resetDisplays
  dsimp only
  rw [Saveframe.mk.injEq]
  refine ⟨rfl, rfl, rfl, ?_, ?_, rfl, rfl⟩
  · simp only [List.map_map]
    exact List.map_congr_left fun t _ => rfl
  · simp only [List.map_map]
    exact List.map_congr_left fun l _ => SLoop.resetDisplaysLoop_scrub l

theorem resetPass_scrub (e : Entry) :
    (Entry.scrub e).resetPass = Entry.scrubMid (e.resetPass) := by
  unfold Entry.scrub Entry.scrubMid Entry.resetPass
  dsimp only
  rw [Entry.mk.injEq]
  refine ⟨rfl, ?_, rfl, rfl, rfl, rfl, rfl, rfl⟩
  simp only [List.map_map]
  exact List.map_congr_left fun sf _ => Saveframe.resetDisplays_scrub sf

theorem applyRulesAt_scrubMid (i : Nat) (rs : List OverrideRule) :
    ∀ e : Entry, Entry.applyRulesAt i (Entry.scrubMid e) rs
      = Except.map Entry.scrubMid (Entry.applyRulesAt i e rs) := by
  induction rs with
  | nil => intro e; rfl
  | cons r rest ih =>
    intro e
    unfold Entry.applyRulesAt
    rw [applyRule_scrubMid]
    cases hr : e.applyRule i r with
    | error m => rfl
    | ok e2 =>
      dsimp only [Except.map]
      exact ih e2

theorem overridePassAux_scrubMid (ns : List Nat) :
    ∀ e : Entry, Entry.overridePassAux (Entry.scrubMid e) ns
      = Except.map Entry.scrubMid (Entry.overridePassAux e ns) := by
  induction ns with
  | nil => intro e; rfl
  | cons i rest ih =>
    intro e
    unfold Entry.overridePassAux
    have hs : (Entry.scrubMid e).schema = e.schema := rfl
    rw [hs, applyRulesAt_scrubMid]
    cases hr : Entry.applyRulesAt i e e.schema.overridesDictList with
    | error m => rfl
    | ok e2 =>
      dsimp only [Except.map]
      exact ih e2

theorem overridePass_scrubMid (e : Entry) :
    (Entry.scrubMid e).overridePass = Except.map Entry.scrubMid e.overridePass := by
  unfold Entry.overridePass
  have hl : (Entry.scrubMid e).saveframes.length = e.saveframes.length := by
    rw [scrubMid_saveframes, List.length_map]
  rw [hl, overridePassAux_scrubMid]

theorem STag.validate_scrubV (t : STag) : (STag.scrubV t).validate = t.validate := by
  unfold STag.validate STag.scrubV
  dsimp only

theorem SLoop.validateLoop_scrubV (l : SLoop) : (SLoop.scrubV l).validate = l.validate := by
  unfold SLoop.validate SLoop.scrubV
  dsimp only
  congr 1
  simp only [List.map_map]
  refine List.map_congr_left fun row _ => ?_
  simp only [Function.comp_apply, List.map_map]
  exact List.map_congr_left fun t _ => STag.validate_scrubV t

theorem Saveframe.refreshSf_scrubV (sf : Saveframe) :
    (Saveframe.scrubV sf).refreshSf = sf.refreshSf := by
  unfold Saveframe.refreshSf Saveframe.scrubV
  dsimp only
  have htags : List.map STag.validate (List.map STag.scrubV sf.tags)
      = List.map STag.validate sf.tags := by
    simp only [List.map_map]
    exact List.map_congr_left fun t _ => STag.validate_scrubV t
  have hloops : List.map SLoop.validate (List.map SLoop.scrubV sf.loops)
      = List.map SLoop.validate sf.loops := by
    simp only [List.map_map]
    exact List.map_congr_left fun l _ => SLoop.validateLoop_scrubV l
  rw [htags, hloops]

theorem pass3_scrubMid (x : Entry) :
    (Entry.mk (Entry.scrubMid x).entryID
      (List.map Saveframe.refreshSf (Entry.scrubMid x).saveframes)
      (Entry.scrubMid x).schema (Entry.scrubMid x).categories (Entry.scrubMid x).enumerationTies
      (Entry.scrubMid x).source (Entry.scrubMid x).dataStore (Entry.scrubMid x).valid)
      = Entry.scrubTop (Entry.mk x.entryID (List.map Saveframe.refreshSf x.saveframes)
          x.schema x.categories x.enumerationTies x.source x.dataStore x.valid) := by
  unfold Entry.scrubMid Entry.scrubTop
  dsimp only
  rw [Entry.mk.injEq]
  refine ⟨rfl, ?_, rfl, rfl, rfl, rfl, rfl, rfl⟩
  simp only [List.map_map]
  exact List.map_congr_left fun sf _ => Saveframe.refreshSf_scrubV sf

theorem citationPass_scrubTop (x : Entry) :
    (Entry.scrubTop x).citationPass = Except.map Entry.scrubTop x.citationPass := by
  unfold Entry.citationPass
  dsimp only
  have h1 : (Entry.scrubTop x).getSaveframesByCategory "citations"
      = x.getSaveframesByCategory "citations" := rfl
  have h2 : (Entry.scrubTop x).saveframes = x.saveframes := rfl
  rw [h1, h2]
  by_cases hb : ((x.getSaveframesByCategory "citations").any
      (fun f => f.getTagValue "_Citation.Class" == some "entry citation")) = true
  · rw [if_pos hb, if_pos hb]
    rfl
  · rw [if_neg hb, if_neg hb]
    cases hm : markCitationFrames x.saveframes with
    | error m => rfl
    | ok sfs =>
      dsimp only [Except.map]
      rfl

theorem buildCatRows_scrubTop (x : Entry) (cs : List String) :
    buildCatRows (Entry.scrubTop x) cs = buildCatRows x cs := by
  induction cs with
  | nil => rfl
  | cons c rest ih =>
    unfold buildCatRows
    dsimp only
    have h1 : (Entry.scrubTop x).schema = x.schema := rfl
    have h2 : (Entry.scrubTop x).getSaveframesByCategory c = x.getSaveframesByCategory c := rfl
    rw [h1, h2, ih]

theorem updateCategoriesE_scrubTop (x : Entry) :
    (Entry.scrubTop x).updateCategoriesE
      = Except.map (fun y => { y with enumerationTies := [], valid := true })
          x.updateCategoriesE := by
  unfold Entry.updateCategoriesE
  have h2 : (Entry.scrubTop x).saveframes = x.saveframes := rfl
  rw [h2, buildCatRows_scrubTop]
  cases hb : buildCatRows x (dedupFirst (List.map (fun sf => sf.category) x.saveframes)) with
  | error m => rfl
  | ok rows =>
    dsimp only [Except.map]
    rfl

theorem refreshE_scrub_arg (e : Entry) : (Entry.scrub e).refreshE = e.refreshE := by
  unfold Entry.refreshE
  rw [resetPass_scrub, overridePass_scrubMid]
  cases ho : (e.resetPass).overridePass with
  | error m => rfl
  | ok e2 =>
    dsimp only [Except.map]
    rw [pass3_scrubMid, citationPass_scrubTop]
    cases hc : Entry.citationPass { e2 with saveframes := e2.saveframes.map Saveframe.refreshSf } with
    | error m => rfl
    | ok e4 =>
      dsimp only [Except.map]
      rw [updateCategoriesE_scrubTop]
      cases hu : e4.updateCategoriesE with
      | error m => rfl
      | ok e5 =>
        dsimp only [Except.map]
        have hties : e5.enumerationTies = [] := by
          have ho2 : Entry.overridePassAux (e.resetPass)
              (List.range (e.resetPass).saveframes.length) = Except.ok e2 := ho
          have f2 := overridePassAux_fields _ _ e2 ho2
          have g2 : e2.enumerationTies = [] := by
            have h3 := congrArg Entry.enumerationTies f2
            simpa [Entry.resetPass] using h3.symm
          have f4 := citationPass_fields _ e4 hc
          have g4 : e4.enumerationTies = [] := by
            have h3 := congrArg Entry.enumerationTies f4
            dsimp only at h3
            rw [g2] at h3
            exact h3.symm
          have f5 := updateCategoriesE_fields e4 e5 hu
          have h3 := congrArg Entry.enumerationTies f5
          dsimp only at h3
          rw [g4] at h3
          exact h3.symm
        cases e5
        dsimp only at hties ⊢
        subst hties
        rfl
/-- C2: a successful `refresh()` reaches a fixed point: refreshing the
resulting entry again succeeds and returns it unchanged — every tag's and
saveframe's validity and display state, the category summary and the overall
validity flag already have their final values. -/
theorem C2_refresh_idempotent (e e2 : Entry) (h : e.refreshE = Except.ok e2) :
    e2.refreshE = Except.ok e2 := by
  have hs : e2.scrub = e.scrub := refreshE_scrub e e2 h
  calc e2.refreshE = (Entry.scrub e2).refreshE := (refreshE_scrub_arg e2).symm
    _ = (Entry.scrub e).refreshE := by rw [hs]
    _ = e.refreshE := refreshE_scrub_arg e
    _ = Except.ok e2 := h

/-- Witness for C2 at a concrete entry. -/
theorem C2_witness : c2wit.refreshE = Except.ok c2wit :=
  C2_refresh_idempotent c2wit c2wit (by decide)
theorem findTag_scrub (sf : Saveframe) (n : String) :
    (Saveframe.scrub sf).findTag n = (sf.findTag n).map STag.scrub := by
  unfold Saveframe.findTag Saveframe.scrub
  simp only [List.find?_map]
  rfl

theorem getTagValue_scrub (sf : Saveframe) (n : String) :
    (Saveframe.scrub sf).getTagValue n = sf.getTagValue n := by
  unfold Saveframe.getTagValue
  rw [findTag_scrub]
  cases sf.findTag n with
  | none => rfl
  | some t => rfl

theorem hasCitAux (sfs : List Saveframe) :
    ((sfs.map Saveframe.scrub).filter (fun sf => jsLower sf.category == jsLower "citations")).any
      (fun f => f.getTagValue "_Citation.Class" == some "entry citation")
    = ((sfs.filter (fun sf => jsLower sf.category == jsLower "citations")).any
      (fun f => f.getTagValue "_Citation.Class" == some "entry citation")) := by
  induction sfs with
  | nil => rfl
  | cons sf rest ih =>
    simp only [List.map_cons, List.filter_cons]
    have hcat : jsLower (Saveframe.scrub sf).category = jsLower sf.category := rfl
    rw [hcat]
    cases hc : (jsLower sf.category == jsLower "citations") with
    | false =>
      simp only [Bool.false_eq_true, if_false]
      exact ih
    | true =>
      simp only [if_true, List.any_cons]
      rw [getTagValue_scrub, ih]

theorem hasEntryCitation_scrub (x : Entry) :
    hasEntryCitation (Entry.scrub x) = hasEntryCitation x := by
  unfold hasEntryCitation Entry.getSaveframesByCategory
  have hs : (Entry.scrub x).saveframes = x.saveframes.map Saveframe.scrub := rfl
  rw [hs]
  exact hasCitAux x.saveframes

theorem hasEntryCitation_congr (a b : Entry) (h : a.scrub = b.scrub) :
    hasEntryCitation a = hasEntryCitation b := by
  rw [← hasEntryCitation_scrub a, ← hasEntryCitation_scrub b, h]

theorem allDataOK_scrub (x : Entry) :
    Entry.allDataOK (Entry.scrub x) = Entry.allDataOK x := by
  have h1 : STag.dataOK ∘ STag.scrub = STag.dataOK := funext fun t => rfl
  have hsf : ∀ sf : Saveframe,
      ((Saveframe.scrub sf).tags.all STag.dataOK &&
       (Saveframe.scrub sf).loops.all (fun l => l.data.all (fun row => row.all STag.dataOK)))
      = (sf.tags.all STag.dataOK &&
         sf.loops.all (fun l => l.data.all (fun row => row.all STag.dataOK))) := by
    intro sf
    unfold Saveframe.scrub
    dsimp only
    rw [List.all_map, h1, List.all_map]
    have h3 : ((fun l : SLoop => l.data.all (fun row => row.all STag.dataOK)) ∘ SLoop.scrub)
        = fun l : SLoop => l.data.all (fun row => row.all STag.dataOK) := by
      funext l
      show ((SLoop.scrub l).data.all (fun row => row.all STag.dataOK)) = _
      unfold SLoop.scrub
      dsimp only
      rw [List.all_map]
      have h4 : ((fun row : List STag => row.all STag.dataOK) ∘ List.map STag.scrub)
          = fun row : List STag => row.all STag.dataOK := by
        funext row
        show (List.map STag.scrub row).all STag.dataOK = _
        rw [List.all_map, h1]
      rw [h4]
    rw [h3]
  unfold Entry.allDataOK Entry.scrub
  dsimp only
  rw [List.all_map]
  have h5 : ((fun sf : Saveframe => sf.tags.all STag.dataOK &&
        sf.loops.all (fun l => l.data.all (fun row => row.all STag.dataOK))) ∘ Saveframe.scrub)
      = fun sf : Saveframe => sf.tags.all STag.dataOK &&
          sf.loops.all (fun l => l.data.all (fun row => row.all STag.dataOK)) := by
    funext sf
    exact hsf sf
  rw [h5]

theorem allDataOK_congr (a b : Entry) (h : a.scrub = b.scrub) :
    Entry.allDataOK a = Entry.allDataOK b := by
  rw [← allDataOK_scrub a, ← allDataOK_scrub b, h]
theorem validate_valid (t : STag) : (STag.validate t).valid = t.dataOK := by
  unfold STag.validate STag.dataOK
  cases t.value with
  | none => rfl
  | some v =>
    dsimp only
    cases hc : (t.enums.isEmpty || t.enums.contains v) with
    | true => rfl
    | false => rfl

theorem refreshSf_valid (sf : Saveframe) :
    (Saveframe.refreshSf sf).valid
      = (sf.tags.all STag.dataOK &&
         sf.loops.all (fun l => l.data.all (fun row => row.all STag.dataOK))) := by
  unfold Saveframe.refreshSf
  dsimp only
  rw [List.all_map]
  have h1 : ((fun t : STag => t.valid) ∘ STag.validate) = STag.dataOK := by
    funext t
    exact validate_valid t
  rw [h1, List.all_map]
  have h2 : ((fun l : SLoop => l.data.all (fun row => row.all (fun t => t.valid))) ∘ SLoop.validate)
      = fun l : SLoop => l.data.all (fun row => row.all STag.dataOK) := by
    funext l
    show ((SLoop.validate l).data.all (fun row => row.all (fun t => t.valid))) = _
    unfold SLoop.validate
    dsimp only
    rw [List.all_map]
    have h3 : ((fun row : List STag => row.all (fun t => t.valid)) ∘ List.map STag.validate)
        = fun row : List STag => row.all STag.dataOK := by
      funext row
      show (List.map STag.validate row).all (fun t => t.valid) = _
      rw [List.all_map, h1]
    rw [h3]
  rw [h2]

theorem computeEntryValid_false (sfs : List Saveframe) (sf : Saveframe)
    (hm : sf ∈ sfs) (hd : sf.display = "Y") (hv : sf.valid = false) :
    computeEntryValid sfs = false := by
  unfold computeEntryValid
  have h1 : sfs.any (fun f => f.display == "Y" && !f.valid) = true := by
    refine List.any_eq_true.mpr ⟨sf, hm, ?_⟩
    rw [hd, hv]
    decide
  rw [h1]
  rfl

theorem computeEntryValid_refreshSf (sfs : List Saveframe)
    (hall : sfs.all (fun sf => sf.tags.all STag.dataOK &&
        sf.loops.all (fun l => l.data.all (fun row => row.all STag.dataOK))) = true) :
    computeEntryValid (sfs.map Saveframe.refreshSf) = true := by
  unfold computeEntryValid
  have h1 : (sfs.map Saveframe.refreshSf).any (fun sf => sf.display == "Y" && !sf.valid) = false := by
    rw [List.any_map, List.any_eq_false]
    intro sf hsf
    have hok := (List.all_eq_true.mp hall) sf hsf
    simp [Function.comp_apply, refreshSf_valid, hok]
  rw [h1]
  rfl

theorem markCitationInvalid_props (sf : Saveframe) (t0 : STag)
    (hf : sf.findTag "_Citation.Class" = some t0) :
    (Saveframe.markCitationInvalid sf).valid = false ∧
    (∃ t ∈ (Saveframe.markCitationInvalid sf).tags, t.name = "_Citation.Class") ∧
    (∀ t ∈ (Saveframe.markCitationInvalid sf).tags, t.name = "_Citation.Class" →
      t.valid = false ∧ t.validationMessage = some citationMessage) := by
  unfold Saveframe.findTag at hf
  have hmem := List.mem_of_find?_eq_some hf
  have hp0 := List.find?_some hf
  have hp : (t0.name == "_Citation.Class") = true := hp0
  refine ⟨rfl, ?_, ?_⟩
  · unfold Saveframe.markCitationInvalid
    dsimp only
    refine ⟨_, List.mem_map_of_mem _ hmem, ?_⟩
    rw [if_pos hp]
    exact eq_of_beq hp
  · intro t ht hname
    unfold Saveframe.markCitationInvalid at ht
    dsimp only at ht
    rcases List.mem_map.mp ht with ⟨t1, ht1, heq⟩
    by_cases hc : (t1.name == "_Citation.Class") = true
    · rw [if_pos hc] at heq
      rw [← heq]
      exact ⟨rfl, rfl⟩
    · rw [if_neg hc] at heq
      rw [← heq] at hname
      exact absurd (by rw [hname]; exact beq_self_eq_true _) hc

theorem markCitationFrames_mem :
    ∀ (sfs l : List Saveframe), markCitationFrames sfs = Except.ok l →
      ∀ sf ∈ l, (jsLower sf.category == "citations") = true →
        sf.valid = false ∧
        (∃ t ∈ sf.tags, t.name = "_Citation.Class") ∧
        (∀ t ∈ sf.tags, t.name = "_Citation.Class" →
          t.valid = false ∧ t.validationMessage = some citationMessage) := by
  intro sfs
  induction sfs with
  | nil =>
    intro l h sf hm hcat
    injection h with h2
    rw [← h2] at hm
    exact absurd hm (by simp)
  | cons sf0 rest ih =>
    intro l h sf hm hcat
    unfold markCitationFrames at h
    by_cases hc0 : (jsLower sf0.category == "citations") = true
    · rw [if_pos hc0] at h
      cases hf : sf0.findTag "_Citation.Class" with
      | none => rw [hf] at h; exact absurd h (by simp)
      | some t0 =>
        rw [hf] at h
        cases hmk : markCitationFrames rest with
        | error m => rw [hmk] at h; exact absurd h (by simp)
        | ok tail =>
          rw [hmk] at h
          injection h with h2
          rw [← h2] at hm
          cases hm with
          | head => exact markCitationInvalid_props sf0 t0 hf
          | tail _ hmtail => exact ih tail hmk sf hmtail hcat
    · rw [if_neg hc0] at h
      cases hmk : markCitationFrames rest with
      | error m => rw [hmk] at h; exact absurd h (by simp)
      | ok tail =>
        rw [hmk] at h
        injection h with h2
        rw [← h2] at hm
        cases hm with
        | head => exact absurd hcat hc0
        | tail _ hmtail => exact ih tail hmk sf hmtail hcat

theorem citationPass_spec (x y : Entry) (h : x.citationPass = Except.ok y) :
    (hasEntryCitation x = true ∧ y = x)
    ∨ (hasEntryCitation x = false ∧
        markCitationFrames x.saveframes = Except.ok y.saveframes ∧
        { x with saveframes := y.saveframes } = y) := by
  unfold Entry.citationPass at h
  cases hb : (x.getSaveframesByCategory "citations").any
      (fun f => f.getTagValue "_Citation.Class" == some "entry citation") with
  | true =>
    left
    refine ⟨hb, ?_⟩
    simp only [hb, if_true] at h
    injection h with h2
    exact h2.symm
  | false =>
    right
    simp only [hb, Bool.false_eq_true, if_false] at h
    cases hm : markCitationFrames x.saveframes with
    | error m => rw [hm] at h; exact absurd h (by simp)
    | ok sfs =>
      rw [hm] at h
      injection h with h2
      refine ⟨hb, ?_, ?_⟩
      · rw [← h2]
      · rw [← h2]
/-- C3 (amended): after a successful `refresh()` on an entry in which no
"citations" saveframe has the value "entry citation" for its
`_Citation.Class` tag, every citations saveframe is marked invalid, holds a
`_Citation.Class` tag, and every such class tag carries `valid = false` with
the fixed explanatory message; the entry flag is forced false only by a
citations saveframe whose aggregate display is "Y" (a hidden one leaves it
untouched — see the counterexample).  Conversely, with a reference citation
present and every tag passing domain validation, the entry flag is true. -/
theorem C3_amended_citation_check (e e2 : Entry) (h : e.refreshE = Except.ok e2) :
    (hasEntryCitation e2 = false →
      (∀ sf ∈ e2.saveframes, (jsLower sf.category == "citations") = true →
        sf.valid = false ∧
        (∃ t ∈ sf.tags, t.name = "_Citation.Class") ∧
        (∀ t ∈ sf.tags, t.name = "_Citation.Class" →
          t.valid = false ∧ t.validationMessage = some citationMessage)) ∧
      (∀ sf ∈ e2.saveframes, (jsLower sf.category == "citations") = true →
        sf.display = "Y" → e2.valid = false))
    ∧ (hasEntryCitation e2 = true → Entry.allDataOK e2 = true → e2.valid = true) := by
  have h0 := h
  unfold Entry.refreshE at h
  cases ho : (e.resetPass).overridePass with
  | error m => rw [ho] at h; exact absurd h (by simp)
  | ok eo =>
    rw [ho] at h
    dsimp only at h
    cases hc : Entry.citationPass { eo with saveframes := eo.saveframes.map Saveframe.refreshSf } with
    | error m => rw [hc] at h; exact absurd h (by simp)
    | ok e4 =>
      rw [hc] at h
      dsimp only at h
      cases hu : e4.updateCategoriesE with
      | error m => rw [hu] at h; exact absurd h (by simp)
      | ok e5 =>
        rw [hu] at h
        injection h with h2
        have hsf2 : e2.saveframes = e5.saveframes := by rw [← h2]
        have hval2 : e2.valid = computeEntryValid e5.saveframes := by rw [← h2]
        have hsf54 : e5.saveframes = e4.saveframes := by
          have f5 := updateCategoriesE_fields e4 e5 hu
          have h3 := congrArg Entry.saveframes f5
          dsimp only at h3
          exact h3.symm
        have ho2 : Entry.overridePassAux (e.resetPass)
            (List.range (e.resetPass).saveframes.length) = Except.ok eo := ho
        have s2 : eo.scrub = e.scrub :=
          (overridePassAux_scrub _ _ eo ho2).trans (Entry.scrub_resetPass e)
        have s1 : e2.scrub = e.scrub := refreshE_scrub e e2 h0
        have s3 : ({ eo with saveframes := eo.saveframes.map Saveframe.refreshSf } : Entry).scrub
            = eo.scrub := pass3_scrub eo
        have sX : e2.scrub
            = ({ eo with saveframes := eo.saveframes.map Saveframe.refreshSf } : Entry).scrub :=
          s1.trans ((s3.trans s2).symm)
        have hEC : hasEntryCitation e2
            = hasEntryCitation { eo with saveframes := eo.saveframes.map Saveframe.refreshSf } :=
          hasEntryCitation_congr _ _ sX
        have hDOK : Entry.allDataOK e2 = Entry.allDataOK eo :=
          allDataOK_congr _ _ (s1.trans s2.symm)
        rcases citationPass_spec _ e4 hc with ⟨hbT, hy⟩ | ⟨hbF, hmark, hflds⟩
        · have hEC2 : hasEntryCitation e2 = true := hEC.trans hbT
          constructor
          · intro hno
            rw [hEC2] at hno
            exact absurd hno (by simp)
          · intro _ hall
            have hXsf : e4.saveframes = List.map Saveframe.refreshSf eo.saveframes := by
              rw [hy]
            have hallEO : Entry.allDataOK eo = true := hDOK.symm.trans hall
            unfold Entry.allDataOK at hallEO
            rw [hval2, hsf54, hXsf]
            exact computeEntryValid_refreshSf eo.saveframes hallEO
        · have hEC2 : hasEntryCitation e2 = false := hEC.trans hbF
          have hsf42 : e2.saveframes = e4.saveframes := hsf2.trans hsf54
          constructor
          · intro _
            constructor
            · intro sf hmem hcat
              exact markCitationFrames_mem _ _ hmark sf (hsf42 ▸ hmem) hcat
            · intro sf hmem hcat hdisp
              have hprops := markCitationFrames_mem _ _ hmark sf (hsf42 ▸ hmem) hcat
              rw [hval2]
              refine computeEntryValid_false e5.saveframes sf ?_ hdisp hprops.1
              rw [hsf54]
              exact hsf42 ▸ hmem
          · intro hty _
            rw [hEC2] at hty
            exact absurd hty (by simp)
set_option maxRecDepth 4000 in
/-- C3 counterexample: `cex3Entry` has a single citations saveframe whose
class is "other" and whose tags are all hidden; its refresh succeeds with no
reference citation present, yet the refreshed entry's overall flag is true —
the final validity scan only counts saveframes whose display is "Y". -/
theorem C3_counterexample :
    Except.map Entry.valid cex3Entry.refreshE = Except.ok true ∧
    Except.map hasEntryCitation cex3Entry.refreshE = Except.ok false ∧
    Except.map (fun x => (x.getSaveframesByCategory "citations").length) cex3Entry.refreshE
      = Except.ok 1 := by
  refine ⟨?_, ?_, ?_⟩ <;> decide

set_option maxRecDepth 4000 in
/-- Witness for C3 at concrete entries: a displayed citations frame of class
"other" makes the refreshed entry invalid, and a displayed entry-citation
frame with clean data keeps it valid. -/
theorem C3_witness :
    c3wEntry.refreshE = Except.ok c3wResult ∧
    c3wResult.valid = false ∧ c3pEntry.valid = true := by
  refine ⟨by decide, ?_, ?_⟩
  · exact ((C3_amended_citation_check c3wEntry c3wResult (by decide)).1 (by decide)).2
      (c3wResult.saveframes.get ⟨0, by decide⟩) (by decide) (by decide) (by decide)
  · exact (C3_amended_citation_check c3pEntry c3pEntry (by decide)).2 (by decide) (by decide)
